import Mathlib

/-!
# CellularAutomata

A shallow embedding of the command-line driver of the cellular automaton
runner (`src/main.cc`): option processing, the grid-size check, parsing, the
construction of the initial grid, the double-buffered generation loop and the
final print. The timing messages that `logTimeSince` writes to standard error
are not modelled.

The parser, the compiler and the interpreter are called by the driver but are
declared elsewhere (`parser.hh`, `ast.hh`); the driver model takes them as
fields of an environment record. A second part models the rule language, the
interpreter and the compiler from the specification, since their sources are
not available.

The definitions come first, the properties after them.
-/

namespace CellularAutomata

/-! ## Machine integers -/

/-- Conversion of an integer to `int` (32 bit, two's complement wrap), as done
when the `long` returned by `strtol` is stored into an `int` variable. -/
def toInt32 (v : Int) : Int := (v + 2 ^ 31) % 2 ^ 32 - 2 ^ 31

/-- Conversion of an integer to `int16_t` (16 bit, two's complement wrap), as
done when a `long` is stored into a grid cell. -/
def toInt16 (v : Int) : Int := (v + 2 ^ 15) % 2 ^ 16 - 2 ^ 15

/-- Whether a mathematical integer is representable as an `int`. -/
def inInt32 (v : Int) : Prop := -(2 ^ 31) ≤ v ∧ v < 2 ^ 31

instance (v : Int) : Decidable (inInt32 v) := by
  unfold inInt32; infer_instance

/-- Ways in which the driver can leave defined behaviour. -/
inductive Undefined where
  | signedOverflow
  | divisionByZero
  deriving DecidableEq, Repr

/-- Multiplication `a * b` of two `int` values; signed overflow is undefined. -/
def mulInt32 (a b : Int) : Except Undefined Int :=
  if inInt32 (a * b) then .ok (a * b) else .error .signedOverflow

/-- Addition `a + b` of two `int` values; signed overflow is undefined. -/
def addInt32 (a b : Int) : Except Undefined Int :=
  if inInt32 (a + b) then .ok (a + b) else .error .signedOverflow

/-- The remainder `a % b` of C (truncated division, the sign follows the
dividend); a zero divisor is undefined. -/
def cMod (a b : Int) : Except Undefined Int :=
  if b = 0 then .error .divisionByZero else .ok (Int.tmod a b)

/-! ## Command line -/

/-- One round of the `getopt(argc, argv, "dji:tO:x:m:")` loop: the option
character that `getopt` returned, with the value `strtol(optarg, 0, 10)` for
the options that take an argument. `other` is any return value that has no
`case` of its own (`'?'` for an option outside the option string such as `-h`,
or for a missing argument). -/
inductive Opt where
  | j
  | x (v : Int)
  | m (v : Int)
  | i (v : Int)
  | t
  | d
  | O (v : Int)
  | other
  deriving DecidableEq, Repr

/-- The local variables of `main` that the options set (and the global
`enableTiming`). -/
structure Config where
  iterations : Int
  useJIT : Bool
  debugGrid : Bool
  optimiseLevel : Int
  gridSize : Int
  maxValue : Int
  enableTiming : Bool
  deriving DecidableEq, Repr

/-- The initial values of the variables, lines 49-54 and 33. -/
def Config.initial : Config :=
  { iterations := 1, useJIT := false, debugGrid := false, optimiseLevel := 0,
    gridSize := 5, maxValue := 1, enableTiming := false }

/-- The `switch (c)` of the option loop; `none` is the `default:` branch
(`usage(); return EXIT_SUCCESS;`). -/
def switchOpt (cfg : Config) : Opt → Option Config
  | .j => some { cfg with useJIT := true }
  | .x v => some { cfg with gridSize := toInt32 v }
  | .m v => some { cfg with maxValue := toInt32 v }
  | .i v => some { cfg with iterations := toInt32 v }
  | .t => some { cfg with enableTiming := true }
  | .d => some { cfg with debugGrid := true }
  | .O v => some { cfg with optimiseLevel := toInt32 v }
  | .other => none

/-- The `while ((c = getopt(...)) != -1)` loop over the options in command-line
order; `none` when some round took the `default:` branch. -/
def optionLoop : List Opt → Config → Option Config
  | [], cfg => some cfg
  | o :: rest, cfg =>
    match switchOpt cfg o with
    | none => none
    | some cfg1 => optionLoop rest cfg1

/-! ## Grids, buffers and the engines -/

/-- The content of a buffer of `int16_t` cells, in row-major order. -/
abbrev Grid := List Int

/-- The buffers `main` can point `g1` and `g2` to: the two local arrays and the
blocks returned by its two `new int16_t[...]` expressions (numbered in the
order of the calls). -/
inductive Ptr where
  | oldgrid
  | newgrid
  | heap (k : Nat)
  deriving DecidableEq, Repr

/-- The content of every buffer. -/
abbrev Memory := Ptr → Grid

/-- Replace the content of the buffer at `p`. -/
def Memory.write (mem : Memory) (p : Ptr) (g : Grid) : Memory :=
  fun q => if q = p then g else mem q

/-- A stepping routine called as `f(current, next, width, height)`: from the
content of the current buffer, the content the next buffer had before the call,
and the dimensions, the content of the next buffer after the call. The current
buffer is read only. -/
abbrev Automaton := Grid → Grid → Int → Int → Grid

/-- What `p.parse(input, ..., ast)` did: its return value and the pointer `ast`
after the call (`none` for a null pointer). -/
structure ParseResult (AST : Type) where
  success : Bool
  ast : Option AST

/-- Everything `main` obtains from outside `main.cc`. -/
structure Env (AST : Type) where
  /-- The directory `dirname(argv[0])`. -/
  path : String
  /-- The outcome of the external parser on the input file. -/
  parse : ParseResult AST
  /-- The external `Compiler::compile(ast, optimiseLevel, path)`. -/
  compile : AST → Int → String → Automaton
  /-- The external `Interpreter::runOneStep(g1, g2, width, height, ast)`. -/
  runOneStep : Grid → Grid → Int → Int → AST → Grid
  /-- The value returned by the `k`-th call of `random()`, from `k = 0`. -/
  random : Nat → Int
  /-- The indeterminate value of cell `i` of a buffer that has not been
  written yet. -/
  uninit : Ptr → Nat → Int

/-- Which engine executed a generation. -/
inductive Engine where
  | compiled
  | interpreter
  deriving DecidableEq, Repr

/-- The observable actions of a run, in order. -/
inductive Event where
  /-- The function `usage()` was called. -/
  | usage
  /-- The grid-size message was printed. -/
  | sizeError
  /-- The parser ran and returned `success`. -/
  | parse (success : Bool)
  /-- The random grid was allocated and the fill loop entered. -/
  | randomGrid
  /-- The function `Compiler::compile` was called with this optimisation level. -/
  | compile (level : Int)
  /-- An engine was called on the buffers `current` and `next`. -/
  | step (engine : Engine) (current next : Ptr) (width height : Int)
  deriving DecidableEq, Repr

/-- Whether the event is a call into an engine (`Compiler::compile`, the
compiled routine or `Interpreter::runOneStep`). -/
def Event.isEngine : Event → Bool
  | .compile _ => true
  | .step _ _ _ _ _ => true
  | _ => false

/-- How a run ends. -/
inductive Status where
  | exitSuccess
  | exitFailure
  | assertionFailed
  | undefined (u : Undefined)
  deriving DecidableEq, Repr

/-- The result of a run: how it ended, what it did, and the rows of numbers it
printed on standard output. -/
structure Outcome where
  status : Status
  events : List Event
  printed : List (List Int)
  deriving DecidableEq, Repr

/-! ## The initial grid (lines 127-153) -/

/-- The initialiser of the local array `oldgrid`. -/
def oldgrid : Grid :=
  [ 0,0,0,0,0,
    0,0,0,0,0,
    0,1,1,1,0,
    0,0,0,0,0,
    0,0,0,0,0 ]

/-- The content of a buffer of `n` cells at `p` before anything is written to
it. -/
def uninitGrid {AST : Type} (env : Env AST) (p : Ptr) (n : Nat) : Grid :=
  (List.range n).map (env.uninit p)

/-- Memory once the declarations of `oldgrid` and `newgrid[25]` have run. -/
def stackMemory {AST : Type} (env : Env AST) : Memory
  | .oldgrid => oldgrid
  | .newgrid => uninitGrid env .newgrid 25
  | .heap _ => []

/-- The value `random() % (maxValue + 1)` as stored into an `int16_t` cell,
for `r` the result of `random()`. -/
def randomCell (maxValue r : Int) : Except Undefined Int :=
  match addInt32 maxValue 1 with
  | .error u => .error u
  | .ok modulus =>
    match cMod r modulus with
    | .error u => .error u
    | .ok v => .ok (toInt16 v)

/-- The loop `for (int i=0 ; i<count ; i++) g1[i] = random() % (maxValue + 1);`
from counter value `i` on, with `count` the value of `gridSize*gridSize`. The
first argument bounds the number of rounds; `fillGrid` passes enough. -/
def fillLoop (count maxValue : Int) (random : Nat → Int) :
    Nat → Int → Grid → Except Undefined Grid
  | 0, _, g => .ok g
  | fuel + 1, i, g =>
    if i < count then
      match randomCell maxValue (random i.toNat) with
      | .error u => .error u
      | .ok v => fillLoop count maxValue random fuel (i + 1) (g.set i.toNat v)
    else .ok g

/-- The whole fill loop, started at `i = 0`. -/
def fillGrid (count maxValue : Int) (random : Nat → Int) (g : Grid) :
    Except Undefined Grid :=
  fillLoop count maxValue random count.toNat 0 g

/-- The two buffer pointers of `main` and the memory they point into. -/
structure Buffers where
  mem : Memory
  g1 : Ptr
  g2 : Ptr

/-- The state of `main` when the generation loop starts. -/
structure Setup where
  gridSize : Int
  bufs : Buffers

/-- Lines 127-153: with `-d` the fixed 5 by 5 grid in the local arrays,
otherwise two new buffers of `gridSize * gridSize` cells, the first filled
with random values. -/
def setupGrid {AST : Type} (cfg : Config) (env : Env AST) : Except Undefined Setup :=
  if cfg.debugGrid then
    .ok { gridSize := 5, bufs := { mem := stackMemory env, g1 := .oldgrid, g2 := .newgrid } }
  else
    match mulInt32 cfg.gridSize cfg.gridSize with
    | .error u => .error u
    | .ok count =>
      let mem1 := (stackMemory env).write (.heap 0) (uninitGrid env (.heap 0) count.toNat)
      let mem2 := mem1.write (.heap 1) (uninitGrid env (.heap 1) count.toNat)
      match fillGrid count cfg.maxValue env.random (mem2 (.heap 0)) with
      | .error u => .error u
      | .ok g =>
        .ok { gridSize := cfg.gridSize,
              bufs := { mem := mem2.write (.heap 0) g, g1 := .heap 0, g2 := .heap 1 } }

/-! ## The generation loop (lines 154-178) -/

/-- The call `f(g1, g2, gridSize, gridSize)`: the buffer at `g2` receives what
the routine computes from the buffer at `g1`. -/
def Buffers.call (b : Buffers) (f : Automaton) (gridSize : Int) : Buffers :=
  { b with mem := b.mem.write b.g2 (f (b.mem b.g1) (b.mem b.g2) gridSize gridSize) }

/-- The exchange `std::swap(g1, g2)`. -/
def Buffers.swap (b : Buffers) : Buffers :=
  { b with g1 := b.g2, g2 := b.g1 }

/-- One round of the generation loop: the call, the swap, and the record of
the call. -/
def generationRound (engine : Engine) (f : Automaton) (gridSize : Int)
    (s : Buffers × List Event) : Buffers × List Event :=
  ((s.1.call f gridSize).swap, s.2 ++ [Event.step engine s.1.g1 s.1.g2 gridSize gridSize])

/-- The loop `for (int i=0 ; i<iterations ; i++) { f(g1, g2, gridSize, gridSize);
std::swap(g1, g2); }` from counter value `i` on, together with the engine
calls it makes. The first argument bounds the number of rounds; `generations`
passes enough. -/
def generationLoop (engine : Engine) (f : Automaton) (gridSize iterations : Int) :
    Nat → Int → Buffers × List Event → Buffers × List Event
  | 0, _, s => s
  | fuel + 1, i, (b, evs) =>
    if i < iterations then
      generationLoop engine f gridSize iterations fuel (i + 1)
        (generationRound engine f gridSize (b, evs))
    else (b, evs)

/-- The whole generation loop, started at `i = 0` with no call made. -/
def generations (engine : Engine) (f : Automaton) (gridSize iterations : Int)
    (b : Buffers) : Buffers × List Event :=
  generationLoop engine f gridSize iterations iterations.toNat 0 (b, [])

/-- The routine that `Interpreter::runOneStep(g1, g2, w, h, ast.get())` is for
a fixed `ast`. -/
def interpreted {AST : Type} (env : Env AST) (ast : AST) : Automaton :=
  fun cur next w h => env.runOneStep cur next w h ast

/-- Lines 155-178: the `if (useJIT)` statement, giving the buffers after the
loop and the engine events. -/
def runGenerations {AST : Type} (cfg : Config) (env : Env AST) (ast : AST) (s : Setup) :
    Buffers × List Event :=
  if cfg.useJIT then
    let r := generations .compiled (env.compile ast cfg.optimiseLevel env.path)
      s.gridSize cfg.iterations s.bufs
    (r.1, Event.compile cfg.optimiseLevel :: r.2)
  else
    generations .interpreter (interpreted env ast) s.gridSize cfg.iterations s.bufs

/-! ## Printing and `main` -/

/-- Lines 179-186: `gridSize` rows of `gridSize` cells of `g`, read at the
running index `i++`, which is `x * gridSize + y` in row `x`, column `y`. -/
def printGrid (gridSize : Int) (g : Grid) : List (List Int) :=
  (List.range gridSize.toNat).map fun x =>
    (List.range gridSize.toNat).map fun y => g.getD (x * gridSize.toNat + y) 0

/-- The record of the grid setup: the random grid is generated unless `-d`
was given. -/
def gridEvents (cfg : Config) : List Event :=
  if cfg.debugGrid then [] else [.randomGrid]

/-- Lines 127-188 of `main`: the run once the parser has produced `ast`. -/
def runParsed {AST : Type} (cfg : Config) (env : Env AST) (ast : AST) : Outcome :=
  match setupGrid cfg env with
  | .error u =>
    { status := .undefined u, events := .parse true :: gridEvents cfg, printed := [] }
  | .ok s =>
    { status := .exitSuccess,
      events := .parse true :: (gridEvents cfg ++ (runGenerations cfg env ast s).2),
      printed := printGrid s.gridSize
        ((runGenerations cfg env ast s).1.mem (runGenerations cfg env ast s).1.g1) }

/-- Lines 96-188 of `main`: everything after the option loop, for the values
`cfg` of the variables and `nargs` the value of `argc` after `argc -= optind`.
A parser that returns true with a null `ast` fails the `assert(ast)`. -/
def mainBody {AST : Type} (cfg : Config) (nargs : Int) (env : Env AST) : Outcome :=
  if nargs < 1 then
    { status := .exitFailure, events := [.usage], printed := [] }
  else if cfg.gridSize < 1 ∨ cfg.gridSize ≥ 2 ^ 15 then
    { status := .exitFailure, events := [.sizeError], printed := [] }
  else if env.parse.success = false then
    { status := .exitFailure, events := [.parse false], printed := [] }
  else
    match env.parse.ast with
    | none => { status := .assertionFailed, events := [.parse true], printed := [] }
    | some ast => runParsed cfg env ast

/-- The driver: the option loop, then the rest of `main`. -/
def main {AST : Type} (opts : List Opt) (nargs : Int) (env : Env AST) : Outcome :=
  match optionLoop opts Config.initial with
  | none => { status := .exitSuccess, events := [.usage], printed := [] }
  | some cfg => mainBody cfg nargs env

/-- The buffers passed as (current, next) in round `j` (from 0) of a loop
started on `b`: the roles alternate. -/
def roundBuffers (b : Buffers) (j : Nat) : Ptr × Ptr :=
  if j % 2 = 0 then (b.g1, b.g2) else (b.g2, b.g1)

/-- The routine that the run calls in every generation: the compiled one with
`-j`, the interpreter otherwise. -/
def selectedRoutine {AST : Type} (cfg : Config) (env : Env AST) (ast : AST) : Automaton :=
  if cfg.useJIT then env.compile ast cfg.optimiseLevel env.path else interpreted env ast

/-- The engine that the option `-j` selects. -/
def selectedEngine (cfg : Config) : Engine :=
  if cfg.useJIT then .compiled else .interpreter

/-- The (current, next) buffers of an engine call, `none` for other events. -/
def Event.stepBuffers : Event → Option (Ptr × Ptr)
  | .step _ cur next _ _ => some (cur, next)
  | _ => none

/-- The engine of an engine call, `none` for other events. -/
def Event.stepEngine : Event → Option Engine
  | .step e _ _ _ _ => some e
  | _ => none

/-- A small environment for concrete runs: the parser succeeds, both engines
add one to every cell of the current buffer, `random()` counts 0, 1, 2, ... and
unwritten cells hold 7. -/
def sampleEnv : Env Unit :=
  { path := ".", parse := { success := true, ast := some () },
    compile := fun _ _ _ cur _ _ _ => cur.map (· + 1),
    runOneStep := fun cur _ _ _ _ => cur.map (· + 1),
    random := fun k => k,
    uninit := fun _ _ => 7 }

/-- Two buffers of four cells, used for concrete runs of the generation loop. -/
def sampleSetup : Setup :=
  { gridSize := 2,
    bufs := { mem := fun p => if p = .heap 0 then [1, 2, 3, 4] else [9, 9, 9, 9],
              g1 := .heap 0, g2 := .heap 1 } }

/-- The state in which the generation loop starts in a debug run within
`sampleEnv`. -/
def sampleDebugSetup : Setup :=
  { gridSize := 5, bufs := { mem := stackMemory sampleEnv, g1 := .oldgrid, g2 := .newgrid } }

/-- Whether the event belongs to parsing, to the generation of the grid or to
an engine: everything that the grid-size check precedes. -/
def Event.isWork : Event → Bool
  | .usage => false
  | .sizeError => false
  | _ => true

/-- The run was rejected with `EXIT_FAILURE` before the parser, the grid
generation or an engine was reached. -/
def Outcome.rejectedEarly (o : Outcome) : Prop :=
  o.status = .exitFailure ∧ ∀ ev ∈ o.events, ev.isWork = false

/-- The variables after the options `-x 2 -i 2`. -/
def sampleConfig : Config :=
  { Config.initial with gridSize := 2, iterations := 2 }

/-- The environment `sampleEnv` with a `random()` that always returns 39999. -/
def constantRandomEnv : Env Unit :=
  { sampleEnv with random := fun _ => 39999 }

/-! ## The rule language and the two engines

The sources of the interpreter and of the compiler are not part of `src/`;
what follows is written from sections 3 and 4 of the specification. -/

/-- Modelled from the spec: the unary operators of the rule AST, whose source
(`ast.hh`) is missing. Section 3 lists unary arithmetic and `not`. -/
inductive UnaryOp where
  | neg
  | not
  deriving DecidableEq, Repr

/-- Modelled from the spec: the binary operators of the rule AST, whose source
(`ast.hh`) is missing: add, subtract, multiply, integer divide, modulo, equal,
less-than, and, or. -/
inductive BinaryOp where
  | add
  | sub
  | mul
  | div
  | mod
  | eq
  | lt
  | and
  | or
  deriving DecidableEq, Repr

/-- Modelled from the spec: the expression nodes of the rule AST, whose source
(`ast.hh`) is missing: literal, self, neighbour at an offset, unary and binary
operations. -/
inductive Expr where
  | lit (n : Int)
  | self
  | neighbor (dx dy : Int)
  | unary (op : UnaryOp) (e : Expr)
  | binary (op : BinaryOp) (a b : Expr)
  deriving DecidableEq, Repr

/-- Modelled from the spec: the program body `AST::StatementList`, whose
source (`ast.hh`) is missing: a sequence of statements, each an assignment to
the output cell or a conditional with two statement lists. The constructors
`assign` and `cond` put one statement in front of the rest of the sequence. -/
inductive StatementList where
  | nil
  | assign (e : Expr) (rest : StatementList)
  | cond (c : Expr) (thenBody elseBody : StatementList) (rest : StatementList)
  deriving DecidableEq, Repr

/-- Modelled from the spec: the operation that failed in an evaluation error
(section 4.1: division or modulo by zero, neighbour coordinate overflow). The
source that defines the errors is missing. -/
inductive FailedOperation where
  | divisionByZero
  | moduloByZero
  | coordinateOverflow
  deriving DecidableEq, Repr

/-- Modelled from the spec: an evaluation error reports the coordinate and the
operation (section 7); the statement is not recorded. The source that defines
the errors is missing. -/
structure EvalError where
  x : Int
  y : Int
  operation : FailedOperation
  deriving DecidableEq, Repr

/-- Modelled from the spec: the evaluation context of section 2, whose source
is missing: the read-only source grid, its dimensions and the coordinate of
the cell being computed. -/
structure Context where
  grid : Grid
  width : Int
  height : Int
  x : Int
  y : Int

/-- Modelled from the spec: the cell at column `x`, row `y` of a row-major
grid of the given width. The source of the grid access is missing. -/
def cellAt (grid : Grid) (width x y : Int) : Int :=
  grid.getD (y * width + x).toNat 0

/-- Modelled from the spec: whether a coordinate lies inside the grid,
`[0, width) × [0, height)` (section 3); the source of the grid access is
missing. -/
def inGrid (width height x y : Int) : Prop :=
  0 ≤ x ∧ x < width ∧ 0 ≤ y ∧ y < height

instance (width height x y : Int) : Decidable (inGrid width height x y) := by
  unfold inGrid; infer_instance

/-- Modelled from the spec: the read of `Neighbor(dx, dy)`, whose source is
missing. The coordinate arithmetic is done in `int` and its overflow is an
evaluation failure (section 4.1); a coordinate outside the grid reads as 0
(the boundary policy of section 3). -/
def readNeighbor (ctx : Context) (dx dy : Int) : Except EvalError Int :=
  if inInt32 (ctx.x + dx) ∧ inInt32 (ctx.y + dy) then
    if inGrid ctx.width ctx.height (ctx.x + dx) (ctx.y + dy) then
      .ok (cellAt ctx.grid ctx.width (ctx.x + dx) (ctx.y + dy))
    else .ok 0
  else .error { x := ctx.x, y := ctx.y, operation := .coordinateOverflow }

/-- Modelled from the spec: the integer `1` or `0` that a comparison or a
boolean operator yields; the source of the interpreter is missing. -/
def boolInt (p : Prop) [Decidable p] : Int := if p then 1 else 0

/-- Modelled from the spec: the value of a unary operation (conventional
integer semantics, section 3). The source of the interpreter is missing. -/
def evalUnary : UnaryOp → Int → Int
  | .neg, a => -a
  | .not, a => boolInt (a = 0)

/-- Modelled from the spec: the value of a binary operation on two integers
(conventional integer semantics, division truncating), `none` for a division
or a modulo by zero; the source of the interpreter is missing. -/
def binaryValue : BinaryOp → Int → Int → Option Int
  | .add, a, b => some (a + b)
  | .sub, a, b => some (a - b)
  | .mul, a, b => some (a * b)
  | .div, a, b => if b = 0 then none else some (Int.tdiv a b)
  | .mod, a, b => if b = 0 then none else some (Int.tmod a b)
  | .eq, a, b => some (boolInt (a = b))
  | .lt, a, b => some (boolInt (a < b))
  | .and, a, b => some (boolInt (a ≠ 0 ∧ b ≠ 0))
  | .or, a, b => some (boolInt (a ≠ 0 ∨ b ≠ 0))

/-- Modelled from the spec: the operation reported when a binary operation
has no value; the source of the interpreter is missing. -/
def BinaryOp.failure : BinaryOp → FailedOperation
  | .mod => .moduloByZero
  | _ => .divisionByZero

/-- Modelled from the spec: the evaluation of a binary operation at a cell;
division and modulo by zero are evaluation failures that report the
coordinate and the operation. The source of the interpreter is missing. -/
def evalBinary (ctx : Context) (op : BinaryOp) (a b : Int) : Except EvalError Int :=
  match binaryValue op a b with
  | some v => .ok v
  | none => .error { x := ctx.x, y := ctx.y, operation := op.failure }

/-- Modelled from the spec: the interpreter's evaluation of an expression at a
cell (sections 3 and 4.1), operands left to right; the source of the
interpreter is missing. -/
def evalExpr (ctx : Context) : Expr → Except EvalError Int
  | .lit n => .ok n
  | .self => .ok (cellAt ctx.grid ctx.width ctx.x ctx.y)
  | .neighbor dx dy => readNeighbor ctx dx dy
  | .unary op e =>
    match evalExpr ctx e with
    | .error err => .error err
    | .ok v => .ok (evalUnary op v)
  | .binary op a b =>
    match evalExpr ctx a with
    | .error err => .error err
    | .ok va =>
      match evalExpr ctx b with
      | .error err => .error err
      | .ok vb => evalBinary ctx op va vb

/-- Modelled from the spec: the interpreter's execution of a statement list at
a cell, from the current value `out` of the output cell to its final value: an
assignment replaces it (the last one wins), a conditional runs one of its two
lists. The source of the interpreter is missing. -/
def execStatements (ctx : Context) : StatementList → Int → Except EvalError Int
  | .nil, out => .ok out
  | .assign e rest, _ =>
    match evalExpr ctx e with
    | .error err => .error err
    | .ok v => execStatements ctx rest v
  | .cond c thenBody elseBody rest, out =>
    match evalExpr ctx c with
    | .error err => .error err
    | .ok v =>
      match (if v ≠ 0 then execStatements ctx thenBody out
             else execStatements ctx elseBody out) with
      | .error err => .error err
      | .ok out2 => execStatements ctx rest out2

/-- Modelled from the spec: the coordinates `(x, y)` of a grid in row-major
order, each exactly once (section 4.1); the source of the interpreter is
missing. -/
def cellCoords (width height : Int) : List (Int × Int) :=
  (List.range (height.toNat * width.toNat)).map fun i =>
    (((i % width.toNat : Nat) : Int), ((i / width.toNat : Nat) : Int))

/-- Modelled from the spec: compute every cell in order, the first failure
aborting the whole step (section 4.1); the source of the interpreter is
missing. -/
def computeCells (f : Int → Int → Except EvalError Int) :
    List (Int × Int) → Except EvalError Grid
  | [] => .ok []
  | p :: rest =>
    match f p.1 p.2 with
    | .error err => .error err
    | .ok v =>
      match computeCells f rest with
      | .error err => .error err
      | .ok vs => .ok (v :: vs)

namespace Interpreter

/-- Modelled from the spec: the value of the output cell at `(x, y)`, which
starts as `Self` so that a program that assigns nothing leaves the cell
unchanged (section 4.1). The source of the interpreter is missing. -/
def runCell (grid : Grid) (width height : Int) (program : StatementList) (x y : Int) :
    Except EvalError Int :=
  execStatements { grid := grid, width := width, height := height, x := x, y := y } program
    (cellAt grid width x y)

/-- Modelled from the spec: `Interpreter::runOneStep` of section 4.1, whose
source is missing. The result is the content of the next buffer (one value per
cell, in row-major order) or the failure that aborted the step; the former
content of the next buffer is not used. Values are mathematical integers: the
runtime does not clamp (section 3). -/
def runOneStep (currentGrid _nextGrid : Grid) (width height : Int) (program : StatementList) :
    Except EvalError Grid :=
  computeCells (runCell currentGrid width height program) (cellCoords width height)

end Interpreter

/-! ### The compiler -/

/-- Modelled from the spec: constant folding of literal-only subexpressions
(section 4.2, level 1 and above); the source of the compiler is missing. An
operation on literals is replaced by its value, except a division or modulo
by zero, which is kept so that it still fails when evaluated. -/
def foldExpr : Expr → Expr
  | .lit n => .lit n
  | .self => .self
  | .neighbor dx dy => .neighbor dx dy
  | .unary op e =>
    match foldExpr e with
    | .lit v => .lit (evalUnary op v)
    | e2 => .unary op e2
  | .binary op a b =>
    match foldExpr a, foldExpr b with
    | .lit va, .lit vb =>
      match binaryValue op va vb with
      | some v => .lit v
      | none => .binary op (.lit va) (.lit vb)
    | a2, b2 => .binary op a2 b2

/-- Modelled from the spec: the statements of `p` followed by those of `q`;
the source of the AST is missing. -/
def StatementList.append : StatementList → StatementList → StatementList
  | .nil, q => q
  | .assign e rest, q => .assign e (rest.append q)
  | .cond c thenBody elseBody rest, q => .cond c thenBody elseBody (rest.append q)

/-- Modelled from the spec: level 1 and above of section 4.2, whose source is
missing: fold the expressions, and replace a conditional whose condition folds
to a literal by the statements of the branch that is taken. -/
def foldStatements : StatementList → StatementList
  | .nil => .nil
  | .assign e rest => .assign (foldExpr e) (foldStatements rest)
  | .cond c thenBody elseBody rest =>
    match foldExpr c with
    | .lit v =>
      (if v ≠ 0 then foldStatements thenBody else foldStatements elseBody).append
        (foldStatements rest)
    | c2 => .cond c2 (foldStatements thenBody) (foldStatements elseBody) (foldStatements rest)

/-- Modelled from the spec: the neighbour offsets that an expression reads;
the source of the compiler is missing. -/
def Expr.offsets : Expr → List (Int × Int)
  | .lit _ => []
  | .self => []
  | .neighbor dx dy => [(dx, dy)]
  | .unary _ e => e.offsets
  | .binary _ a b => a.offsets ++ b.offsets

/-- Modelled from the spec: the neighbour offsets that a statement list reads;
the source of the compiler is missing. -/
def StatementList.offsets : StatementList → List (Int × Int)
  | .nil => []
  | .assign e rest => e.offsets ++ rest.offsets
  | .cond c thenBody elseBody rest =>
    c.offsets ++ (thenBody.offsets ++ (elseBody.offsets ++ rest.offsets))

/-- Modelled from the spec: how far the offsets of a program reach in each
direction, the result of hoisting the boundary checks out of the cells
(section 4.2, level 2); the source of the compiler is missing. -/
structure Margins where
  left : Int
  right : Int
  top : Int
  bottom : Int
  deriving DecidableEq, Repr

/-- Modelled from the spec: the margins of a list of offsets; the source of
the compiler is missing. -/
def margins : List (Int × Int) → Margins
  | [] => { left := 0, right := 0, top := 0, bottom := 0 }
  | (dx, dy) :: rest =>
    { left := max (margins rest).left (-dx), right := max (margins rest).right dx,
      top := max (margins rest).top (-dy), bottom := max (margins rest).bottom dy }

/-- Modelled from the spec: the check hoisted out of the neighbour reads of a
cell (section 4.2, level 2): the coordinates at the four margins are computed
without overflow and lie inside the grid. The cells that pass are the interior
cells, the others the border cells. The source of the compiler is missing. -/
def Margins.interior (m : Margins) (width height x y : Int) : Prop :=
  (inInt32 (x - m.left) ∧ inInt32 (x + m.right)
    ∧ inInt32 (y - m.top) ∧ inInt32 (y + m.bottom))
  ∧ inGrid width height (x - m.left) (y - m.top)
  ∧ inGrid width height (x + m.right) (y + m.bottom)

instance (m : Margins) (width height x y : Int) : Decidable (m.interior width height x y) := by
  unfold Margins.interior; infer_instance

/-- Modelled from the spec: the neighbour read of an interior cell, with no
range check (section 4.2, level 2); the source of the compiler is missing. -/
def readInterior (ctx : Context) (dx dy : Int) : Except EvalError Int :=
  .ok (cellAt ctx.grid ctx.width (ctx.x + dx) (ctx.y + dy))

/-- Modelled from the spec: the neighbour values already read during the
evaluation of one cell, by offset (the common-subexpression elimination of
section 4.2, level 2); the source of the compiler is missing. -/
abbrev ReadCache := List ((Int × Int) × Int)

/-- Modelled from the spec: evaluation of an expression in which a repeated
`Neighbor(dx, dy)` is read once (through `read`) and then taken from the cache;
the source of the compiler is missing. -/
def evalShared (read : Int → Int → Except EvalError Int) (ctx : Context) :
    Expr → ReadCache → Except EvalError (Int × ReadCache)
  | .lit n, cache => .ok (n, cache)
  | .self, cache => .ok (cellAt ctx.grid ctx.width ctx.x ctx.y, cache)
  | .neighbor dx dy, cache =>
    match cache.lookup (dx, dy) with
    | some v => .ok (v, cache)
    | none =>
      match read dx dy with
      | .error err => .error err
      | .ok v => .ok (v, ((dx, dy), v) :: cache)
  | .unary op e, cache =>
    match evalShared read ctx e cache with
    | .error err => .error err
    | .ok r => .ok (evalUnary op r.1, r.2)
  | .binary op a b, cache =>
    match evalShared read ctx a cache with
    | .error err => .error err
    | .ok ra =>
      match evalShared read ctx b ra.2 with
      | .error err => .error err
      | .ok rb =>
        match evalBinary ctx op ra.1 rb.1 with
        | .error err => .error err
        | .ok v => .ok (v, rb.2)

/-- Modelled from the spec: execution of a statement list with shared neighbour
reads, the cache living for the evaluation of one cell; the source of the
compiler is missing. -/
def execShared (read : Int → Int → Except EvalError Int) (ctx : Context) :
    StatementList → Int → ReadCache → Except EvalError (Int × ReadCache)
  | .nil, out, cache => .ok (out, cache)
  | .assign e rest, _, cache =>
    match evalShared read ctx e cache with
    | .error err => .error err
    | .ok r => execShared read ctx rest r.1 r.2
  | .cond c thenBody elseBody rest, out, cache =>
    match evalShared read ctx c cache with
    | .error err => .error err
    | .ok r =>
      match (if r.1 ≠ 0 then execShared read ctx thenBody out r.2
             else execShared read ctx elseBody out r.2) with
      | .error err => .error err
      | .ok r2 => execShared read ctx rest r2.1 r2.2

/-- Modelled from the spec: the lowered representation of a program, separate
from the AST (section 3, lifecycle): the statements to run and, from level 2,
the margins that separate interior from border cells. The source of the
compiler is missing. -/
structure Lowered where
  body : StatementList
  fast : Option Margins

namespace Compiler

/-- Modelled from the spec: the lowering of section 4.2, whose source is
missing. Level 0 keeps the statements as they are; level 1 and above folds
constants and removes branches with a constant condition; level 2 and above
also shares neighbour reads and hoists the boundary checks. -/
def lower (program : StatementList) (optimisationLevel : Int) : Lowered :=
  if optimisationLevel ≤ 0 then { body := program, fast := none }
  else if optimisationLevel = 1 then { body := foldStatements program, fast := none }
  else
    { body := foldStatements program,
      fast := some (margins (foldStatements program).offsets) }

/-- Modelled from the spec: the value that the stepping routine computes for
the cell at `(x, y)`; the source of the compiler is missing. Below level 2 it
is the per-cell routine shared with the interpreter (section 9); from level 2
an interior cell reads its neighbours unchecked and a border cell takes the
fully checked path, both with shared reads. -/
def stepCell (l : Lowered) (grid : Grid) (width height x y : Int) : Except EvalError Int :=
  match l.fast with
  | none =>
    execStatements { grid := grid, width := width, height := height, x := x, y := y } l.body
      (cellAt grid width x y)
  | some m =>
    match (if m.interior width height x y then
             execShared
               (readInterior { grid := grid, width := width, height := height, x := x, y := y })
               { grid := grid, width := width, height := height, x := x, y := y } l.body
               (cellAt grid width x y) []
           else
             execShared
               (readNeighbor { grid := grid, width := width, height := height, x := x, y := y })
               { grid := grid, width := width, height := height, x := x, y := y } l.body
               (cellAt grid width x y) []) with
    | .error err => .error err
    | .ok r => .ok r.1

/-- Modelled from the spec: the stepping routine `steppingRoutine(currentGrid,
nextGrid, width, height)` of a lowered program; the source of the compiler is
missing. -/
def steppingRoutine (l : Lowered) (currentGrid _nextGrid : Grid) (width height : Int) :
    Except EvalError Grid :=
  computeCells (stepCell l currentGrid width height) (cellCoords width height)

/-- Modelled from the spec: `Compiler::compile(program, optimisationLevel,
auxSearchPath)` of section 4.2, whose source is missing; the search path has
no semantic effect. Every program of the closed AST can be lowered, so a
routine is always returned. -/
def compile (program : StatementList) (optimisationLevel : Int) (_auxSearchPath : String) :
    Grid → Grid → Int → Int → Except EvalError Grid :=
  steppingRoutine (lower program optimisationLevel)

end Compiler

/-- Modelled from the spec: a cache is valid at a cell when each value in it
is the value of the neighbour read it stands for; the source of the compiler
is missing. -/
def ReadCache.valid (cache : ReadCache) (ctx : Context) : Prop :=
  ∀ dx dy v, cache.lookup (dx, dy) = some v → readNeighbor ctx dx dy = .ok v

/-! ### The example scenario of section 8 -/

/-- The comparison `Neighbor(dx, dy) == 1`, which is 1 for a live neighbour. -/
def liveNeighbor (dx dy : Int) : Expr :=
  .binary .eq (.neighbor dx dy) (.lit 1)

/-- The number of the 8 neighbours with value 1. -/
def liveCount : Expr :=
  .binary .add (liveNeighbor (-1) (-1)) (.binary .add (liveNeighbor 0 (-1))
    (.binary .add (liveNeighbor 1 (-1)) (.binary .add (liveNeighbor (-1) 0)
      (.binary .add (liveNeighbor 1 0) (.binary .add (liveNeighbor (-1) 1)
        (.binary .add (liveNeighbor 0 1) (liveNeighbor 1 1)))))))

/-- The program of the example scenario: assign 1 when the count is 2 or 3 and
`Self == 1`, or the count is 3 and `Self == 0`; else assign 0. -/
def lifeProgram : StatementList :=
  .cond
    (.binary .or
      (.binary .and
        (.binary .or (.binary .eq liveCount (.lit 2)) (.binary .eq liveCount (.lit 3)))
        (.binary .eq .self (.lit 1)))
      (.binary .and (.binary .eq liveCount (.lit 3)) (.binary .eq .self (.lit 0))))
    (.assign (.lit 1) .nil)
    (.assign (.lit 0) .nil)
    .nil

/-- The vertical blinker: the cells at column 2, rows 1 to 3 are 1. -/
def verticalBlinker : Grid :=
  [ 0,0,0,0,0,
    0,0,1,0,0,
    0,0,1,0,0,
    0,0,1,0,0,
    0,0,0,0,0 ]

/-- The state in which the generation loop starts in the run `-x 2 -i 2`
within `sampleEnv`: the first buffer holds the random cells 0 1 0 1. -/
def sampleRandomSetup : Setup :=
  { gridSize := 2,
    bufs :=
      { mem := (((stackMemory sampleEnv).write (.heap 0) [7, 7, 7, 7]).write (.heap 1)
          [7, 7, 7, 7]).write (.heap 0) [0, 1, 0, 1],
        g1 := .heap 0, g2 := .heap 1 } }

/-! # Properties of the driver -/

/-! ## Machine integers -/

theorem toInt32_eq_self {v : Int} (h : inInt32 v) : toInt32 v = v := by
  unfold inInt32 at h
  unfold toInt32
  omega

theorem toInt16_eq_self {v : Int} (h1 : -(2 ^ 15) ≤ v) (h2 : v < 2 ^ 15) : toInt16 v = v := by
  unfold toInt16
  omega

/-! ## The generation loop -/

/-- With at least `iterations - i` rounds allowed, the loop from counter `i`
runs exactly `max (iterations - i) 0` rounds. -/
theorem generationLoop_eq_iterate (engine : Engine) (f : Automaton) (gridSize iterations : Int)
    (fuel : Nat) (i : Int) (s : Buffers × List Event) (h : (iterations - i).toNat ≤ fuel) :
    generationLoop engine f gridSize iterations fuel i s
      = (generationRound engine f gridSize)^[(iterations - i).toNat] s := by
  induction fuel generalizing i s with
  | zero =>
    have h0 : (iterations - i).toNat = 0 := by omega
    rw [h0]
    rfl
  | succ fuel ih =>
    obtain ⟨b, evs⟩ := s
    by_cases hlt : i < iterations
    · have hk : (iterations - i).toNat = (iterations - (i + 1)).toNat + 1 := by omega
      rw [hk, Function.iterate_succ_apply]
      simp only [generationLoop, hlt, if_true]
      exact ih (i + 1) _ (by omega)
    · have h0 : (iterations - i).toNat = 0 := by omega
      rw [h0]
      simp [generationLoop, hlt]

/-- The loop satisfies the defining equation of the `for` statement: the bound
on the number of rounds is never what stops it. -/
theorem generationLoop_unfold (engine : Engine) (f : Automaton) (gridSize iterations : Int)
    (i : Int) (s : Buffers × List Event) :
    generationLoop engine f gridSize iterations (iterations - i).toNat i s
      = if i < iterations then
          generationLoop engine f gridSize iterations (iterations - (i + 1)).toNat (i + 1)
            (generationRound engine f gridSize s)
        else s := by
  rw [generationLoop_eq_iterate _ _ _ _ _ _ _ (le_refl _)]
  by_cases hlt : i < iterations
  · have hk : (iterations - i).toNat = (iterations - (i + 1)).toNat + 1 := by omega
    rw [if_pos hlt, generationLoop_eq_iterate _ _ _ _ _ _ _ (le_refl _), hk,
      Function.iterate_succ_apply]
  · have h0 : (iterations - i).toNat = 0 := by omega
    rw [if_neg hlt, h0]
    rfl

theorem generations_eq_iterate (engine : Engine) (f : Automaton) (gridSize iterations : Int)
    (b : Buffers) :
    generations engine f gridSize iterations b
      = (generationRound engine f gridSize)^[iterations.toNat] (b, []) := by
  unfold generations
  rw [generationLoop_eq_iterate _ _ _ _ _ _ _ (by omega), sub_zero]

/-- After `k` rounds the pointers have been exchanged `k` times and round `j`
was recorded with the buffers `roundBuffers b j`. -/
theorem iterate_round_pointers (engine : Engine) (f : Automaton) (gridSize : Int)
    (b : Buffers) (evs : List Event) (k : Nat) :
    (((generationRound engine f gridSize)^[k] (b, evs)).1.g1,
      ((generationRound engine f gridSize)^[k] (b, evs)).1.g2) = roundBuffers b k
    ∧ ((generationRound engine f gridSize)^[k] (b, evs)).2
      = evs ++ (List.range k).map fun j =>
          Event.step engine (roundBuffers b j).1 (roundBuffers b j).2 gridSize gridSize := by
  induction k with
  | zero => simp [roundBuffers]
  | succ k ih =>
    obtain ⟨hp, hev⟩ := ih
    rw [Function.iterate_succ_apply']
    have hp1 : ((generationRound engine f gridSize)^[k] (b, evs)).1.g1 = (roundBuffers b k).1 :=
      congrArg Prod.fst hp
    have hp2 : ((generationRound engine f gridSize)^[k] (b, evs)).1.g2 = (roundBuffers b k).2 :=
      congrArg Prod.snd hp
    constructor
    · simp only [generationRound, Buffers.swap, Buffers.call, hp1, hp2]
      unfold roundBuffers
      by_cases hk : k % 2 = 0
      · have hk1 : ¬ (k + 1) % 2 = 0 := by omega
        simp [hk, hk1]
      · have hk1 : (k + 1) % 2 = 0 := by omega
        simp [hk, hk1]
    · simp only [generationRound, hev, hp1, hp2, List.range_succ, List.map_append,
        List.map_cons, List.map_nil, List.append_assoc]

/-- After `k` rounds with a routine that computes `step` of the current
buffer, the buffer at `g1` holds `step` applied `k` times to what the buffer
at `g1` held at the start. -/
theorem iterate_round_content (engine : Engine) (f : Automaton) (gridSize : Int)
    (step : Grid → Grid) (hstep : ∀ cur old, f cur old gridSize gridSize = step cur)
    (b : Buffers) (evs : List Event) (k : Nat) :
    ((generationRound engine f gridSize)^[k] (b, evs)).1.mem
        ((generationRound engine f gridSize)^[k] (b, evs)).1.g1
      = step^[k] (b.mem b.g1) := by
  induction k with
  | zero => rfl
  | succ k ih =>
    rw [Function.iterate_succ_apply', Function.iterate_succ_apply']
    simp only [generationRound, Buffers.swap, Buffers.call, Memory.write, if_true, hstep, ih]

/-- The engine events of the `if (useJIT)` statement: the call of the
compiler with `-j`, then one call per round with alternating buffers. -/
theorem runGenerations_events {AST : Type} (cfg : Config) (env : Env AST) (ast : AST)
    (s : Setup) :
    (runGenerations cfg env ast s).2
      = (if cfg.useJIT then [Event.compile cfg.optimiseLevel] else [])
        ++ (List.range cfg.iterations.toNat).map fun j =>
            Event.step (selectedEngine cfg) (roundBuffers s.bufs j).1 (roundBuffers s.bufs j).2
              s.gridSize s.gridSize := by
  unfold runGenerations selectedEngine
  cases hj : cfg.useJIT
  · simp only [Bool.false_eq_true, if_false, generations_eq_iterate]
    rw [(iterate_round_pointers _ _ _ _ _ _).2]
  · simp only [if_true, generations_eq_iterate]
    rw [(iterate_round_pointers _ _ _ _ _ _).2]
    simp

/-- The buffer at `g1` after the `if (useJIT)` statement. -/
theorem runGenerations_content {AST : Type} (cfg : Config) (env : Env AST) (ast : AST)
    (s : Setup) (step : Grid → Grid)
    (hstep : ∀ cur old, selectedRoutine cfg env ast cur old s.gridSize s.gridSize = step cur) :
    (runGenerations cfg env ast s).1.mem (runGenerations cfg env ast s).1.g1
      = step^[cfg.iterations.toNat] (s.bufs.mem s.bufs.g1) := by
  unfold selectedRoutine at hstep
  unfold runGenerations
  cases hj : cfg.useJIT
  · simp only [hj, Bool.false_eq_true, if_false, generations_eq_iterate] at hstep ⊢
    exact iterate_round_content _ _ _ step hstep _ _ _
  · simp only [hj, if_true, generations_eq_iterate] at hstep ⊢
    exact iterate_round_content _ _ _ step hstep _ _ _

/-- The engine tag and the event list do not influence the buffers. -/
theorem iterate_round_buffers (e1 e2 : Engine) (f : Automaton) (gridSize : Int)
    (b : Buffers) (evs1 evs2 : List Event) (k : Nat) :
    ((generationRound e1 f gridSize)^[k] (b, evs1)).1
      = ((generationRound e2 f gridSize)^[k] (b, evs2)).1 := by
  induction k with
  | zero => rfl
  | succ k ih =>
    rw [Function.iterate_succ_apply', Function.iterate_succ_apply']
    simp only [generationRound, ih]

/-! ## The initial grid -/

/-- The two buffers that `main` sets up are distinct. -/
theorem setupGrid_distinct {AST : Type} (cfg : Config) (env : Env AST) (s : Setup)
    (hsetup : setupGrid cfg env = .ok s) : s.bufs.g1 ≠ s.bufs.g2 := by
  unfold setupGrid at hsetup
  split at hsetup
  · cases hsetup
    simp
  · split at hsetup
    · cases hsetup
    · dsimp only at hsetup
      split at hsetup
      · cases hsetup
      · cases hsetup
        simp

/-! ## The whole run -/

/-- The run after a successful parse, given the grid setup. -/
theorem runParsed_of_setup {AST : Type} (cfg : Config) (env : Env AST) (ast : AST) (s : Setup)
    (hsetup : setupGrid cfg env = .ok s) :
    runParsed cfg env ast
      = { status := .exitSuccess,
          events := .parse true :: (gridEvents cfg ++ (runGenerations cfg env ast s).2),
          printed := printGrid s.gridSize
            ((runGenerations cfg env ast s).1.mem (runGenerations cfg env ast s).1.g1) } := by
  unfold runParsed
  rw [hsetup]

/-- A run that gets past the two checks with a parser that succeeds. -/
theorem mainBody_of_parsed {AST : Type} (cfg : Config) (nargs : Int) (env : Env AST)
    (ast : AST) (hargs : 1 ≤ nargs) (hsize : 1 ≤ cfg.gridSize ∧ cfg.gridSize < 2 ^ 15)
    (hok : env.parse.success = true) (hast : env.parse.ast = some ast) :
    mainBody cfg nargs env = runParsed cfg env ast := by
  unfold mainBody
  have h1 : ¬ nargs < 1 := by omega
  have h2 : ¬ (cfg.gridSize < 1 ∨ cfg.gridSize ≥ 2 ^ 15) := by omega
  rw [if_neg h1, if_neg h2, if_neg (by simp [hok]), hast]

/-- A run that reaches the generation loop with a routine that computes
`step` prints `step` applied `max iterations 0` times to the initial grid and
returns 0. -/
theorem mainBody_prints_iterated_step {AST : Type} (cfg : Config) (nargs : Int)
    (env : Env AST) (ast : AST) (s : Setup) (step : Grid → Grid) (hargs : 1 ≤ nargs)
    (hsize : 1 ≤ cfg.gridSize ∧ cfg.gridSize < 2 ^ 15)
    (hok : env.parse.success = true) (hast : env.parse.ast = some ast)
    (hsetup : setupGrid cfg env = .ok s)
    (hstep : ∀ cur old, selectedRoutine cfg env ast cur old s.gridSize s.gridSize = step cur) :
    (mainBody cfg nargs env).status = .exitSuccess
    ∧ (mainBody cfg nargs env).printed
        = printGrid s.gridSize (step^[cfg.iterations.toNat] (s.bufs.mem s.bufs.g1)) := by
  rw [mainBody_of_parsed cfg nargs env ast hargs hsize hok hast,
    runParsed_of_setup cfg env ast s hsetup]
  refine ⟨rfl, ?_⟩
  dsimp only
  rw [runGenerations_content cfg env ast s step hstep]

/-! ## The generation loop of a run -/

/-- C1: for every iteration count, every initial buffers and either mode, when
the routine in use computes a total function `step` of the current buffer, the
buffer at `g1` after the generation loop (the one `main` prints) holds `step`
applied `max iterations 0` times to the initial grid; for `iterations ≤ 0` no
step is invoked and that buffer is the initial grid. -/
theorem generations_apply_step_n_times {AST : Type} (cfg : Config) (env : Env AST)
    (ast : AST) (s : Setup) (step : Grid → Grid)
    (hstep : ∀ cur old, selectedRoutine cfg env ast cur old s.gridSize s.gridSize = step cur) :
    (runGenerations cfg env ast s).1.mem (runGenerations cfg env ast s).1.g1
        = step^[(max cfg.iterations 0).toNat] (s.bufs.mem s.bufs.g1)
    ∧ (cfg.iterations ≤ 0 →
        (∀ ev ∈ (runGenerations cfg env ast s).2, ev.stepEngine = none)
        ∧ (runGenerations cfg env ast s).1.mem (runGenerations cfg env ast s).1.g1
            = s.bufs.mem s.bufs.g1) := by
  have hmax : (max cfg.iterations 0).toNat = cfg.iterations.toNat := by
    rcases le_total cfg.iterations 0 with h | h
    · rw [max_eq_right h]; omega
    · rw [max_eq_left h]
  have hcontent := runGenerations_content cfg env ast s step hstep
  refine ⟨by rw [hmax]; exact hcontent, ?_⟩
  intro hle
  have h0 : cfg.iterations.toNat = 0 := by omega
  constructor
  · intro ev hev
    rw [runGenerations_events, h0] at hev
    cases hj : cfg.useJIT
    · simp [hj] at hev
    · simp [hj] at hev
      subst hev
      rfl
  · rw [hcontent, h0]
    rfl

/-- Two generations of the interpreter that adds one to every cell, from the
grid 1 2 3 4: the buffer at `g1` ends as 3 4 5 6. -/
theorem generations_apply_step_n_times_witness :
    (∀ cur old : Grid,
        selectedRoutine { Config.initial with iterations := 2 } sampleEnv () cur old
          sampleSetup.gridSize sampleSetup.gridSize = cur.map (· + 1))
    ∧ (runGenerations { Config.initial with iterations := 2 } sampleEnv () sampleSetup).1.mem
        (runGenerations { Config.initial with iterations := 2 } sampleEnv () sampleSetup).1.g1
      = [3, 4, 5, 6] :=
  ⟨fun _ _ => rfl,
    (generations_apply_step_n_times { Config.initial with iterations := 2 } sampleEnv ()
      sampleSetup (fun g => g.map (· + 1)) (fun _ _ => rfl)).1.trans (by decide)⟩

/-- The (current, next) pairs of the engine calls of the `if (useJIT)`
statement, in order. -/
theorem runGenerations_calls {AST : Type} (cfg : Config) (env : Env AST) (ast : AST)
    (s : Setup) :
    (runGenerations cfg env ast s).2.filterMap Event.stepBuffers
      = (List.range cfg.iterations.toNat).map (roundBuffers s.bufs) := by
  rw [runGenerations_events, List.filterMap_append]
  have h1 : (if cfg.useJIT then [Event.compile cfg.optimiseLevel] else []).filterMap
      Event.stepBuffers = [] := by
    cases cfg.useJIT <;> rfl
  rw [h1, List.nil_append, List.filterMap_map]
  have h2 : (Event.stepBuffers ∘ fun j =>
      Event.step (selectedEngine cfg) (roundBuffers s.bufs j).1 (roundBuffers s.bufs j).2
        s.gridSize s.gridSize) = fun j => some (roundBuffers s.bufs j) := by
    funext j
    rfl
  rw [h2]
  exact congrFun (List.filterMap_eq_map (roundBuffers s.bufs)) _

/-- C8: in both modes and for every iteration count, the generation loop makes
`max iterations 0` engine calls; each call receives two distinct buffers as
(current, next), both taken from the two buffers set up before the loop, and
the buffer passed as current in a generation is the one passed as next in the
generation before it (and conversely). -/
theorem double_buffer_invariant {AST : Type} (cfg : Config) (env : Env AST) (ast : AST)
    (s : Setup) (hsetup : setupGrid cfg env = .ok s) :
    ((runGenerations cfg env ast s).2.filterMap Event.stepBuffers).length
        = (max cfg.iterations 0).toNat
    ∧ ∀ (k : Nat) (cur next : Ptr),
        ((runGenerations cfg env ast s).2.filterMap Event.stepBuffers)[k]? = some (cur, next) →
        cur ≠ next
        ∧ ((cur = s.bufs.g1 ∧ next = s.bufs.g2) ∨ (cur = s.bufs.g2 ∧ next = s.bufs.g1))
        ∧ (k = 0 → cur = s.bufs.g1 ∧ next = s.bufs.g2)
        ∧ ∀ cur2 next2 : Ptr,
            ((runGenerations cfg env ast s).2.filterMap Event.stepBuffers)[k + 1]?
              = some (cur2, next2) →
            cur2 = next ∧ next2 = cur := by
  have hne := setupGrid_distinct cfg env s hsetup
  have hmax : (max cfg.iterations 0).toNat = cfg.iterations.toNat := by
    rcases le_total cfg.iterations 0 with h | h
    · rw [max_eq_right h]; omega
    · rw [max_eq_left h]
  rw [runGenerations_calls, hmax]
  refine ⟨by simp, ?_⟩
  intro k cur next hk
  rw [List.getElem?_map] at hk
  cases hr : (List.range cfg.iterations.toNat)[k]? with
  | none => rw [hr] at hk; cases hk
  | some j =>
    rw [hr] at hk
    have hj : j = k := by
      rw [List.getElem?_eq_some_iff] at hr
      obtain ⟨hlt, heq⟩ := hr
      rw [List.getElem_range] at heq
      exact heq.symm
    subst hj
    simp only [Option.map_some', Option.some.injEq] at hk
    have hcur : cur = (roundBuffers s.bufs j).1 := by rw [hk]
    have hnext : next = (roundBuffers s.bufs j).2 := by rw [hk]
    unfold roundBuffers at hcur hnext
    refine ⟨?_, ?_, ?_, ?_⟩
    · by_cases hp : j % 2 = 0
      · simp only [hp, if_true] at hcur hnext
        rw [hcur, hnext]; exact hne
      · simp only [hp, if_false] at hcur hnext
        rw [hcur, hnext]; exact fun h => hne h.symm
    · by_cases hp : j % 2 = 0
      · simp only [hp, if_true] at hcur hnext
        exact Or.inl ⟨hcur, hnext⟩
      · simp only [hp, if_false] at hcur hnext
        exact Or.inr ⟨hcur, hnext⟩
    · intro h0
      subst h0
      exact ⟨hcur, hnext⟩
    · intro cur2 next2 hk2
      rw [List.getElem?_map] at hk2
      cases hr2 : (List.range cfg.iterations.toNat)[j + 1]? with
      | none => rw [hr2] at hk2; cases hk2
      | some j2 =>
        rw [hr2] at hk2
        have hj2 : j2 = j + 1 := by
          rw [List.getElem?_eq_some_iff] at hr2
          obtain ⟨hlt, heq⟩ := hr2
          rw [List.getElem_range] at heq
          exact heq.symm
        subst hj2
        simp only [Option.map_some', Option.some.injEq] at hk2
        have hcur2 : cur2 = (roundBuffers s.bufs (j + 1)).1 := by rw [hk2]
        have hnext2 : next2 = (roundBuffers s.bufs (j + 1)).2 := by rw [hk2]
        unfold roundBuffers at hcur2 hnext2
        by_cases hp : j % 2 = 0
        · have hp1 : ¬ (j + 1) % 2 = 0 := by omega
          simp only [hp, if_true] at hcur hnext
          simp only [hp1, if_false] at hcur2 hnext2
          exact ⟨by rw [hcur2, hnext], by rw [hnext2, hcur]⟩
        · have hp1 : (j + 1) % 2 = 0 := by omega
          simp only [hp, if_false] at hcur hnext
          simp only [hp1, if_true] at hcur2 hnext2
          exact ⟨by rw [hcur2, hnext], by rw [hnext2, hcur]⟩

/-- A debug run of three generations: three engine calls, on
(oldgrid, newgrid), (newgrid, oldgrid) and (oldgrid, newgrid). -/
theorem double_buffer_invariant_witness :
    setupGrid { Config.initial with debugGrid := true, iterations := 3 } sampleEnv
        = .ok sampleDebugSetup
    ∧ ((runGenerations { Config.initial with debugGrid := true, iterations := 3 } sampleEnv ()
          sampleDebugSetup).2.filterMap Event.stepBuffers).length = 3
    ∧ (runGenerations { Config.initial with debugGrid := true, iterations := 3 } sampleEnv ()
          sampleDebugSetup).2.filterMap Event.stepBuffers
        = [(.oldgrid, .newgrid), (.newgrid, .oldgrid), (.oldgrid, .newgrid)] :=
  ⟨rfl,
    (double_buffer_invariant { Config.initial with debugGrid := true, iterations := 3 }
      sampleEnv () sampleDebugSetup rfl).1.trans (by decide),
    by decide⟩

/-! ## Mode selection -/

/-- The buffers after the loop are the same in both modes when the two
routines agree. -/
theorem runGenerations_buffers_congr {AST : Type} (cfg1 cfg2 : Config) (env : Env AST)
    (ast : AST) (s : Setup) (hiter : cfg1.iterations = cfg2.iterations)
    (hsame : selectedRoutine cfg1 env ast = selectedRoutine cfg2 env ast) :
    (runGenerations cfg1 env ast s).1 = (runGenerations cfg2 env ast s).1 := by
  unfold selectedRoutine at hsame
  unfold runGenerations
  cases h1 : cfg1.useJIT <;> cases h2 : cfg2.useJIT <;>
    simp only [h1, h2, Bool.false_eq_true, if_false, if_true, generations_eq_iterate]
      at hsame ⊢ <;>
    (try rw [hsame]) <;>
    rw [hiter] <;>
    exact iterate_round_buffers _ _ _ _ _ _ _ _

/-- The events of a run after a successful parse. -/
theorem runParsed_events {AST : Type} (cfg : Config) (env : Env AST) (ast : AST)
    (ev : Event) (hev : ev ∈ (runParsed cfg env ast).events) :
    ev = .parse true ∨ (ev = .randomGrid ∧ cfg.debugGrid = false)
      ∨ ∃ s, setupGrid cfg env = .ok s ∧ ev ∈ (runGenerations cfg env ast s).2 := by
  have hgrid : ∀ e ∈ gridEvents cfg, e = .randomGrid ∧ cfg.debugGrid = false := by
    intro e he
    unfold gridEvents at he
    cases hd : cfg.debugGrid <;> simp [hd] at he
    exact ⟨he, rfl⟩
  unfold runParsed at hev
  split at hev
  · rcases List.mem_cons.mp hev with h | h
    · exact Or.inl h
    · exact Or.inr (Or.inl (hgrid ev h))
  · rename_i s hs
    rcases List.mem_cons.mp hev with h | h
    · exact Or.inl h
    · rcases List.mem_append.mp h with h | h
      · exact Or.inr (Or.inl (hgrid ev h))
      · exact Or.inr (Or.inr ⟨s, hs, h⟩)

/-- The events of everything after the option loop. -/
theorem mainBody_events {AST : Type} (cfg : Config) (nargs : Int) (env : Env AST)
    (ev : Event) (hev : ev ∈ (mainBody cfg nargs env).events) :
    ev = .usage ∨ ev = .sizeError ∨ ev = .parse false
      ∨ (ev = .parse true ∧ env.parse.success = true)
      ∨ ∃ ast, env.parse.success = true ∧ env.parse.ast = some ast
          ∧ 1 ≤ cfg.gridSize ∧ cfg.gridSize < 2 ^ 15
          ∧ ev ∈ (runParsed cfg env ast).events := by
  unfold mainBody at hev
  by_cases h1 : nargs < 1
  · rw [if_pos h1] at hev
    simp at hev
    exact Or.inl hev
  rw [if_neg h1] at hev
  by_cases h2 : cfg.gridSize < 1 ∨ cfg.gridSize ≥ 2 ^ 15
  · rw [if_pos h2] at hev
    simp at hev
    exact Or.inr (Or.inl hev)
  rw [if_neg h2] at hev
  by_cases h3 : env.parse.success = false
  · rw [if_pos h3] at hev
    simp at hev
    exact Or.inr (Or.inr (Or.inl hev))
  rw [if_neg h3] at hev
  have hok : env.parse.success = true := by simpa using h3
  cases hast : env.parse.ast with
  | none =>
    rw [hast] at hev
    simp at hev
    exact Or.inr (Or.inr (Or.inr (Or.inl ⟨hev, hok⟩)))
  | some ast =>
    rw [hast] at hev
    exact Or.inr (Or.inr (Or.inr (Or.inr ⟨ast, hok, rfl, by omega, by omega, hev⟩)))

/-- C2: when the compiled routine (at every optimisation level) and
`Interpreter::runOneStep` compute the same next buffer from every current
buffer, a run with `-j` at any `-O` level prints the same grid and ends with
the same status as the run without `-j`; and within any one run every
generation is executed by the one engine that `-j` selects. -/
theorem mode_selection_same_result {AST : Type} (cfg : Config) (nargs : Int) (env : Env AST)
    (lvl lvl2 : Int)
    (hEq : ∀ ast level cur old w h,
      env.compile ast level env.path cur old w h = env.runOneStep cur old w h ast) :
    (mainBody { cfg with useJIT := true, optimiseLevel := lvl } nargs env).printed
        = (mainBody { cfg with useJIT := false, optimiseLevel := lvl2 } nargs env).printed
    ∧ (mainBody { cfg with useJIT := true, optimiseLevel := lvl } nargs env).status
        = (mainBody { cfg with useJIT := false, optimiseLevel := lvl2 } nargs env).status
    ∧ ∀ ev ∈ (mainBody cfg nargs env).events, ∀ e : Engine,
        ev.stepEngine = some e → e = selectedEngine cfg := by
  have hparsed : ∀ ast,
      (runParsed { cfg with useJIT := true, optimiseLevel := lvl } env ast).printed
        = (runParsed { cfg with useJIT := false, optimiseLevel := lvl2 } env ast).printed
      ∧ (runParsed { cfg with useJIT := true, optimiseLevel := lvl } env ast).status
        = (runParsed { cfg with useJIT := false, optimiseLevel := lvl2 } env ast).status := by
    intro ast
    have hs : setupGrid { cfg with useJIT := true, optimiseLevel := lvl } env
        = setupGrid { cfg with useJIT := false, optimiseLevel := lvl2 } env := rfl
    unfold runParsed
    rw [hs]
    cases setupGrid { cfg with useJIT := false, optimiseLevel := lvl2 } env with
    | error u => exact ⟨rfl, rfl⟩
    | ok s =>
      refine ⟨?_, rfl⟩
      dsimp only
      rw [runGenerations_buffers_congr { cfg with useJIT := true, optimiseLevel := lvl }
        { cfg with useJIT := false, optimiseLevel := lvl2 } env ast s rfl]
      funext cur old w h
      exact hEq ast lvl cur old w h
  refine ⟨?_, ?_, ?_⟩
  · unfold mainBody
    dsimp only
    by_cases h1 : nargs < 1
    · rw [if_pos h1, if_pos h1]
    rw [if_neg h1, if_neg h1]
    by_cases h2 : cfg.gridSize < 1 ∨ cfg.gridSize ≥ 2 ^ 15
    · rw [if_pos h2, if_pos h2]
    rw [if_neg h2, if_neg h2]
    by_cases h3 : env.parse.success = false
    · rw [if_pos h3, if_pos h3]
    rw [if_neg h3, if_neg h3]
    cases env.parse.ast with
    | none => rfl
    | some ast => exact (hparsed ast).1
  · unfold mainBody
    dsimp only
    by_cases h1 : nargs < 1
    · rw [if_pos h1, if_pos h1]
    rw [if_neg h1, if_neg h1]
    by_cases h2 : cfg.gridSize < 1 ∨ cfg.gridSize ≥ 2 ^ 15
    · rw [if_pos h2, if_pos h2]
    rw [if_neg h2, if_neg h2]
    by_cases h3 : env.parse.success = false
    · rw [if_pos h3, if_pos h3]
    rw [if_neg h3, if_neg h3]
    cases env.parse.ast with
    | none => rfl
    | some ast => exact (hparsed ast).2
  · intro ev hev e he
    rcases mainBody_events cfg nargs env ev hev with h | h | h | h | ⟨ast, _, _, _, _, h⟩
    · subst h; cases he
    · subst h; cases he
    · subst h; cases he
    · rw [h.1] at he; cases he
    · rcases runParsed_events cfg env ast ev h with h | h | ⟨s, _, h⟩
      · subst h; cases he
      · rw [h.1] at he; cases he
      · rw [runGenerations_events, List.mem_append] at h
        rcases h with hc | hs
        · cases hj : cfg.useJIT <;> simp [hj] at hc
          subst hc; cases he
        · rw [List.mem_map] at hs
          obtain ⟨j, _, rfl⟩ := hs
          simp only [Event.stepEngine, Option.some.injEq] at he
          exact he.symm

/-- In `sampleEnv` both engines add one to every cell: a run of two generations
on a 2 by 2 random grid prints the same rows with `-j -O 3` as without. -/
theorem mode_selection_same_result_witness :
    (∀ (ast : Unit) (level : Int) (cur old : Grid) (w h : Int),
        sampleEnv.compile ast level sampleEnv.path cur old w h
          = sampleEnv.runOneStep cur old w h ast)
    ∧ (mainBody { sampleConfig with useJIT := true, optimiseLevel := 3 } 1 sampleEnv).printed
        = [[2, 3], [2, 3]]
    ∧ (mainBody { sampleConfig with useJIT := false, optimiseLevel := 0 } 1 sampleEnv).printed
        = [[2, 3], [2, 3]] :=
  ⟨fun _ _ _ _ _ _ => rfl,
    ((mode_selection_same_result sampleConfig 1 sampleEnv 3 0
      (fun _ _ _ _ _ _ => rfl)).1).trans (by decide),
    by decide⟩

/-! ## The checks before the engines run -/

/-- The generation loop records engine events only. -/
theorem runGenerations_isEngine {AST : Type} (cfg : Config) (env : Env AST) (ast : AST)
    (s : Setup) (ev : Event) (hev : ev ∈ (runGenerations cfg env ast s).2) :
    ev.isEngine = true := by
  rw [runGenerations_events, List.mem_append] at hev
  rcases hev with hc | hs
  · cases hj : cfg.useJIT <;> simp [hj] at hc
    subst hc; rfl
  · rw [List.mem_map] at hs
    obtain ⟨j, _, rfl⟩ := hs
    rfl

/-- A run after a successful parse never records a parser failure. -/
theorem runParsed_no_parse_failure {AST : Type} (cfg : Config) (env : Env AST) (ast : AST) :
    Event.parse false ∉ (runParsed cfg env ast).events := by
  intro hev
  rcases runParsed_events cfg env ast _ hev with h | h | ⟨s, _, h⟩
  · cases h
  · cases h.1
  · have := runGenerations_isEngine cfg env ast s _ h
    cases this

/-- The run when the option loop completed. -/
theorem main_of_options {AST : Type} (opts : List Opt) (cfg : Config) (nargs : Int)
    (env : Env AST) (hopts : optionLoop opts Config.initial = some cfg) :
    main opts nargs env = mainBody cfg nargs env := by
  unfold main
  rw [hopts]

/-- The size check on the rest of `main`, for a run with a file name. -/
theorem mainBody_size_check {AST : Type} (cfg : Config) (nargs : Int) (env : Env AST)
    (hargs : 1 ≤ nargs) :
    ((mainBody cfg nargs env).rejectedEarly ↔ (cfg.gridSize < 1 ∨ cfg.gridSize ≥ 2 ^ 15))
    ∧ (1 ≤ cfg.gridSize ∧ cfg.gridSize < 2 ^ 15 →
        Event.parse env.parse.success ∈ (mainBody cfg nargs env).events) := by
  have h1 : ¬ nargs < 1 := by omega
  have hpass : 1 ≤ cfg.gridSize ∧ cfg.gridSize < 2 ^ 15 →
      Event.parse env.parse.success ∈ (mainBody cfg nargs env).events := by
    intro hsize
    have h2 : ¬ (cfg.gridSize < 1 ∨ cfg.gridSize ≥ 2 ^ 15) := by omega
    unfold mainBody
    rw [if_neg h1, if_neg h2]
    cases hok : env.parse.success with
    | false => simp
    | true =>
      simp only [Bool.true_eq_false, if_false]
      cases hast : env.parse.ast with
      | none => simp
      | some ast =>
        dsimp only
        unfold runParsed
        cases setupGrid cfg env <;> simp
  refine ⟨⟨?_, ?_⟩, hpass⟩
  · intro hrej
    by_contra hsize
    have hin := hpass (by omega)
    have := hrej.2 _ hin
    cases this
  · intro hsize
    unfold mainBody
    rw [if_neg h1, if_pos hsize]
    refine ⟨rfl, ?_⟩
    intro ev hev
    simp at hev
    subst hev
    rfl

/-- C3, as stated, fails: the command line `-x 0 -h file` has a file-name
argument and requests the grid size 0, but `h` is not in the option string of
`getopt`, so the switch takes its `default:` branch: the run prints the usage
text and returns `EXIT_SUCCESS`, and is not rejected with a failure exit. -/
theorem usage_exit_precedes_size_check :
    (switchOpt Config.initial (Opt.x 0)).map (fun cfg => cfg.gridSize) = some 0
    ∧ optionLoop [Opt.x 0, Opt.other] Config.initial = none
    ∧ (main [Opt.x 0, Opt.other] 1 sampleEnv).status = .exitSuccess
    ∧ (main [Opt.x 0, Opt.other] 1 sampleEnv).events = [.usage]
    ∧ ¬ (main [Opt.x 0, Opt.other] 1 sampleEnv).rejectedEarly :=
  ⟨by decide, by decide, by decide, by decide, fun h => by cases h.1⟩

/-- C3, amended: given a file-name argument, the driver exits with
`EXIT_FAILURE` before the parser, the grid generation or any engine is reached
exactly when its option loop completes (no unrecognised option sends it to
`usage()`) and leaves `gridSize < 1` or `gridSize ≥ 2^15`, whatever the other
options (`-d` included); for `1 ≤ gridSize < 2^15` the check passes and the
run goes on to the parser. -/
theorem size_check_rejects_iff {AST : Type} (opts : List Opt) (nargs : Int) (env : Env AST)
    (hargs : 1 ≤ nargs) :
    ((main opts nargs env).rejectedEarly ↔
        ∃ cfg, optionLoop opts Config.initial = some cfg
          ∧ (cfg.gridSize < 1 ∨ cfg.gridSize ≥ 2 ^ 15))
    ∧ (∀ cfg, optionLoop opts Config.initial = some cfg →
        1 ≤ cfg.gridSize ∧ cfg.gridSize < 2 ^ 15 →
        Event.parse env.parse.success ∈ (main opts nargs env).events) := by
  cases hopts : optionLoop opts Config.initial with
  | none =>
    refine ⟨⟨?_, ?_⟩, ?_⟩
    · intro hrej
      unfold main at hrej
      rw [hopts] at hrej
      cases hrej.1
    · rintro ⟨cfg, hcfg, _⟩
      cases hcfg
    · intro cfg hcfg
      cases hcfg
  | some cfg =>
    rw [main_of_options opts cfg nargs env hopts]
    obtain ⟨hiff, hpass⟩ := mainBody_size_check cfg nargs env hargs
    refine ⟨⟨?_, ?_⟩, ?_⟩
    · intro hrej
      exact ⟨cfg, rfl, hiff.mp hrej⟩
    · rintro ⟨cfg2, hcfg2, hbad⟩
      simp only [Option.some.injEq] at hcfg2
      subst hcfg2
      exact hiff.mpr hbad
    · intro cfg2 hcfg2 hsize
      simp only [Option.some.injEq] at hcfg2
      subst hcfg2
      exact hpass hsize

/-- The options `-d -x 0` with a file name: rejected before parsing. -/
theorem size_check_rejects_iff_witness :
    (1 : Int) ≤ 1
    ∧ (main [Opt.d, Opt.x 0] 1 sampleEnv).rejectedEarly
    ∧ (main [Opt.d, Opt.x 0] 1 sampleEnv).events = [.sizeError] :=
  ⟨le_refl _,
    (size_check_rejects_iff [Opt.d, Opt.x 0] 1 sampleEnv (le_refl _)).1.mpr
      ⟨{ Config.initial with debugGrid := true, gridSize := 0 }, by decide, Or.inl (by decide)⟩,
    by decide⟩

/-- C4: whenever the parser runs and reports failure, the run ends with
`EXIT_FAILURE` having done nothing but parse (no grid is generated, nothing is
printed, and neither `Compiler::compile`, the compiled routine nor
`Interpreter::runOneStep` is called); and an engine is called only in runs in
which the parser succeeded and produced an AST. -/
theorem parse_failure_invokes_no_engine {AST : Type} (opts : List Opt) (nargs : Int)
    (env : Env AST) :
    (Event.parse false ∈ (main opts nargs env).events →
        (main opts nargs env).status = .exitFailure
        ∧ (main opts nargs env).events = [.parse false]
        ∧ (main opts nargs env).printed = [])
    ∧ (∀ ev ∈ (main opts nargs env).events, ev.isEngine = true →
        env.parse.success = true ∧ ∃ ast, env.parse.ast = some ast) := by
  unfold main
  cases optionLoop opts Config.initial with
  | none =>
    refine ⟨fun h => ?_, fun ev hev he => ?_⟩
    · simp at h
    · simp at hev
      subst hev
      cases he
  | some cfg =>
    dsimp only
    constructor
    · intro hfail
      unfold mainBody at hfail ⊢
      by_cases h1 : nargs < 1
      · rw [if_pos h1] at hfail
        simp at hfail
      rw [if_neg h1] at hfail ⊢
      by_cases h2 : cfg.gridSize < 1 ∨ cfg.gridSize ≥ 2 ^ 15
      · rw [if_pos h2] at hfail
        simp at hfail
      rw [if_neg h2] at hfail ⊢
      by_cases h3 : env.parse.success = false
      · rw [if_pos h3]
        exact ⟨rfl, rfl, rfl⟩
      rw [if_neg h3] at hfail
      cases hast : env.parse.ast with
      | none =>
        rw [hast] at hfail
        simp at hfail
      | some ast =>
        rw [hast] at hfail
        exact absurd hfail (runParsed_no_parse_failure cfg env ast)
    · intro ev hev he
      rcases mainBody_events cfg nargs env ev hev with h | h | h | h | ⟨ast, hok, hast, _, _, _⟩
      · subst h; cases he
      · subst h; cases he
      · subst h; cases he
      · rw [h.1] at he; cases he
      · exact ⟨hok, ast, hast⟩

/-- A parser that fails on the input: the run is `EXIT_FAILURE` with the parse
as its only event. -/
theorem parse_failure_invokes_no_engine_witness :
    Event.parse false ∈
        (main [Opt.j] 1 { sampleEnv with parse := { success := false, ast := none } }).events
    ∧ (main [Opt.j] 1 { sampleEnv with parse := { success := false, ast := none } }).status
        = .exitFailure :=
  ⟨by decide,
    ((parse_failure_invokes_no_engine [Opt.j] 1
      { sampleEnv with parse := { success := false, ast := none } }).1 (by decide)).1⟩

/-! ## The random fill -/

/-- The cell value when the modulus `maxValue + 1` is a non-zero `int`. -/
theorem randomCell_ok (maxValue r : Int) (hrange : inInt32 (maxValue + 1))
    (hne : maxValue + 1 ≠ 0) :
    randomCell maxValue r = .ok (toInt16 (Int.tmod r (maxValue + 1))) := by
  unfold randomCell addInt32 cMod
  rw [if_pos hrange]
  dsimp only
  rw [if_neg hne]

/-- A fill loop that completes has written `random() % (maxValue + 1)` to every
cell from `i` up to `count`, and left the length and the cells below `i` as
they were. -/
theorem fillLoop_spec (count maxValue : Int) (random : Nat → Int) (fuel : Nat) (i : Int)
    (g g2 : Grid) (hi : 0 ≤ i) (hfuel : (count - i).toNat ≤ fuel)
    (hlen : count.toNat ≤ g.length)
    (h : fillLoop count maxValue random fuel i g = .ok g2) :
    g2.length = g.length
    ∧ (∀ k, k < i.toNat → g2[k]? = g[k]?)
    ∧ (∀ k, i.toNat ≤ k → k < count.toNat →
        randomCell maxValue (random k) = .ok (g2.getD k 0)) := by
  induction fuel generalizing i g with
  | zero =>
    simp only [fillLoop, Except.ok.injEq] at h
    subst h
    refine ⟨rfl, fun _ _ => rfl, fun k hk1 hk2 => ?_⟩
    omega
  | succ fuel ih =>
    unfold fillLoop at h
    by_cases hlt : i < count
    · rw [if_pos hlt] at h
      cases hc : randomCell maxValue (random i.toNat) with
      | error u => rw [hc] at h; cases h
      | ok v =>
        rw [hc] at h
        dsimp only at h
        have hlen2 : count.toNat ≤ (g.set i.toNat v).length := by
          rw [List.length_set]; exact hlen
        obtain ⟨h1, h2, h3⟩ := ih (i + 1) (g.set i.toNat v) (by omega) (by omega) hlen2 h
        have hi1 : (i + 1).toNat = i.toNat + 1 := by omega
        refine ⟨by rw [h1, List.length_set], ?_, ?_⟩
        · intro k hk
          rw [h2 k (by omega), List.getElem?_set_ne (by omega)]
        · intro k hk1 hk2
          by_cases hki : k = i.toNat
          · subst hki
            have hget := h2 i.toNat (by omega)
            rw [List.getElem?_set_self (by omega)] at hget
            rw [hc, List.getD_eq_getElem?_getD, hget]
            rfl
          · exact h3 k (by omega) hk2
    · rw [if_neg hlt] at h
      simp only [Except.ok.injEq] at h
      subst h
      refine ⟨rfl, fun _ _ => rfl, fun k hk1 hk2 => ?_⟩
      omega

/-- The fill loop completes when every cell value is defined. -/
theorem fillLoop_completes (count maxValue : Int) (random : Nat → Int)
    (hcell : ∀ r, ∃ v, randomCell maxValue r = .ok v) (fuel : Nat) (i : Int) (g : Grid) :
    ∃ g2, fillLoop count maxValue random fuel i g = .ok g2 := by
  induction fuel generalizing i g with
  | zero => exact ⟨g, rfl⟩
  | succ fuel ih =>
    unfold fillLoop
    by_cases hlt : i < count
    · rw [if_pos hlt]
      obtain ⟨v, hv⟩ := hcell (random i.toNat)
      rw [hv]
      exact ih (i + 1) _
    · rw [if_neg hlt]
      exact ⟨g, rfl⟩

/-- The fill loop stops at its first round when the cell value is undefined. -/
theorem fillGrid_error (count maxValue : Int) (random : Nat → Int) (g : Grid) (u : Undefined)
    (hcount : 1 ≤ count) (hcell : randomCell maxValue (random 0) = .error u) :
    fillGrid count maxValue random g = .error u := by
  unfold fillGrid
  obtain ⟨n, hn⟩ : ∃ n, count.toNat = n + 1 := ⟨count.toNat - 1, by omega⟩
  rw [hn]
  unfold fillLoop
  rw [if_pos (by omega)]
  have h0 : (0 : Int).toNat = 0 := rfl
  rw [h0, hcell]

/-- The fill loop satisfies the defining equation of the `for` statement: the
bound on the number of rounds is never what stops it. -/
theorem fillLoop_unfold (count maxValue : Int) (random : Nat → Int) (i : Int) (g : Grid) :
    fillLoop count maxValue random (count - i).toNat i g
      = if i < count then
          match randomCell maxValue (random i.toNat) with
          | .error u => .error u
          | .ok v =>
            fillLoop count maxValue random (count - (i + 1)).toNat (i + 1) (g.set i.toNat v)
        else .ok g := by
  by_cases hlt : i < count
  · have hk : (count - i).toNat = (count - (i + 1)).toNat + 1 := by omega
    rw [hk, if_pos hlt]
    simp only [fillLoop, hlt, if_true]
  · have h0 : (count - i).toNat = 0 := by omega
    rw [h0, if_neg hlt]
    rfl

/-- The product of an accepted grid size with itself. -/
theorem gridSize_sq_bounds (g : Int) (h1 : 1 ≤ g) (h2 : g < 2 ^ 15) :
    1 ≤ g * g ∧ g * g < 2 ^ 31 := by
  constructor
  · nlinarith
  · have h3 : g ≤ 2 ^ 15 - 1 := by omega
    nlinarith

theorem mulInt32_gridSize (g : Int) (h1 : 1 ≤ g) (h2 : g < 2 ^ 15) :
    mulInt32 g g = .ok (g * g) := by
  obtain ⟨h3, h4⟩ := gridSize_sq_bounds g h1 h2
  unfold mulInt32
  rw [if_pos]
  unfold inInt32
  constructor
  · omega
  · exact h4

/-- The grid setup without `-d`, for an accepted grid size: both buffers have
`gridSize * gridSize` cells and every cell of the first is a random cell. -/
theorem setupGrid_random_spec {AST : Type} (cfg : Config) (env : Env AST) (s : Setup)
    (hd : cfg.debugGrid = false) (hsize : 1 ≤ cfg.gridSize ∧ cfg.gridSize < 2 ^ 15)
    (h : setupGrid cfg env = .ok s) :
    s.gridSize = cfg.gridSize ∧ s.bufs.g1 = .heap 0 ∧ s.bufs.g2 = .heap 1
    ∧ (s.bufs.mem s.bufs.g1).length = (cfg.gridSize * cfg.gridSize).toNat
    ∧ (s.bufs.mem s.bufs.g2).length = (cfg.gridSize * cfg.gridSize).toNat
    ∧ ∀ k, k < (cfg.gridSize * cfg.gridSize).toNat →
        randomCell cfg.maxValue (env.random k) = .ok ((s.bufs.mem s.bufs.g1).getD k 0) := by
  unfold setupGrid at h
  rw [hd, mulInt32_gridSize _ hsize.1 hsize.2] at h
  simp only [Bool.false_eq_true, if_false] at h
  cases hf : fillGrid (cfg.gridSize * cfg.gridSize) cfg.maxValue env.random
      ((((stackMemory env).write (.heap 0)
        (uninitGrid env (.heap 0) (cfg.gridSize * cfg.gridSize).toNat)).write (.heap 1)
        (uninitGrid env (.heap 1) (cfg.gridSize * cfg.gridSize).toNat)) (.heap 0)) with
  | error u => rw [hf] at h; cases h
  | ok g =>
    rw [hf] at h
    simp only [Except.ok.injEq] at h
    subst h
    have hlen0 : ((((stackMemory env).write (.heap 0)
        (uninitGrid env (.heap 0) (cfg.gridSize * cfg.gridSize).toNat)).write (.heap 1)
        (uninitGrid env (.heap 1) (cfg.gridSize * cfg.gridSize).toNat)) (.heap 0)).length
        = (cfg.gridSize * cfg.gridSize).toNat := by
      simp [Memory.write, uninitGrid]
    unfold fillGrid at hf
    obtain ⟨h1, _, h3⟩ := fillLoop_spec _ _ _ _ 0 _ g (le_refl _) (by omega) (by omega) hf
    refine ⟨rfl, rfl, rfl, ?_, ?_, ?_⟩
    · simp only [Memory.write, if_true]
      rw [h1, hlen0]
    · simp [Memory.write, uninitGrid]
    · intro k hk
      simp only [Memory.write, if_true]
      exact h3 k (by simp) hk

/-- The grid setup without `-d` succeeds when every cell value is defined. -/
theorem setupGrid_random_ok {AST : Type} (cfg : Config) (env : Env AST)
    (hd : cfg.debugGrid = false) (hsize : 1 ≤ cfg.gridSize ∧ cfg.gridSize < 2 ^ 15)
    (hcell : ∀ r, ∃ v, randomCell cfg.maxValue r = .ok v) :
    ∃ s, setupGrid cfg env = .ok s := by
  unfold setupGrid
  rw [hd, mulInt32_gridSize _ hsize.1 hsize.2]
  simp only [Bool.false_eq_true, if_false]
  unfold fillGrid
  obtain ⟨g, hg⟩ := fillLoop_completes (cfg.gridSize * cfg.gridSize) cfg.maxValue env.random
    hcell (cfg.gridSize * cfg.gridSize).toNat 0
    ((((stackMemory env).write (.heap 0)
        (uninitGrid env (.heap 0) (cfg.gridSize * cfg.gridSize).toNat)).write (.heap 1)
        (uninitGrid env (.heap 1) (cfg.gridSize * cfg.gridSize).toNat)) (.heap 0))
  rw [hg]
  exact ⟨_, rfl⟩

/-- The grid setup without `-d` is undefined when the first cell value is. -/
theorem setupGrid_random_error {AST : Type} (cfg : Config) (env : Env AST) (u : Undefined)
    (hd : cfg.debugGrid = false) (hsize : 1 ≤ cfg.gridSize ∧ cfg.gridSize < 2 ^ 15)
    (hcell : randomCell cfg.maxValue (env.random 0) = .error u) :
    setupGrid cfg env = .error u := by
  unfold setupGrid
  rw [hd, mulInt32_gridSize _ hsize.1 hsize.2]
  simp only [Bool.false_eq_true, if_false]
  rw [fillGrid_error _ _ _ _ u (gridSize_sq_bounds _ hsize.1 hsize.2).1 hcell]

/-! ## The initial grid of a run -/

/-- C9: for every grid size that passes the check, `gridSize * gridSize` does
not overflow `int`: the product is defined, equals the mathematical product,
is at least 1 and below 2^31; and in a run without `-d` both buffers have that
many cells and the fill loop has written every one of them. -/
theorem cell_count_no_overflow {AST : Type} (cfg : Config) (env : Env AST)
    (hsize : 1 ≤ cfg.gridSize ∧ cfg.gridSize < 2 ^ 15) :
    mulInt32 cfg.gridSize cfg.gridSize = .ok (cfg.gridSize * cfg.gridSize)
    ∧ 1 ≤ cfg.gridSize * cfg.gridSize ∧ cfg.gridSize * cfg.gridSize < 2 ^ 31
    ∧ ∀ s, cfg.debugGrid = false → setupGrid cfg env = .ok s →
        (s.bufs.mem s.bufs.g1).length = (cfg.gridSize * cfg.gridSize).toNat
        ∧ (s.bufs.mem s.bufs.g2).length = (cfg.gridSize * cfg.gridSize).toNat
        ∧ ∀ k, k < (cfg.gridSize * cfg.gridSize).toNat →
            randomCell cfg.maxValue (env.random k) = .ok ((s.bufs.mem s.bufs.g1).getD k 0) := by
  refine ⟨mulInt32_gridSize _ hsize.1 hsize.2, (gridSize_sq_bounds _ hsize.1 hsize.2).1,
    (gridSize_sq_bounds _ hsize.1 hsize.2).2, ?_⟩
  intro s hd hs
  obtain ⟨_, _, _, h1, h2, h3⟩ := setupGrid_random_spec cfg env s hd hsize hs
  exact ⟨h1, h2, h3⟩

/-- The run `-x 2 -i 2` in `sampleEnv`: 4 cells in each buffer; and the largest
accepted size, 32767, has the cell count 1073676289. -/
theorem cell_count_no_overflow_witness :
    ((1 : Int) ≤ sampleConfig.gridSize ∧ sampleConfig.gridSize < 2 ^ 15)
    ∧ setupGrid sampleConfig sampleEnv = .ok sampleRandomSetup
    ∧ (sampleRandomSetup.bufs.mem sampleRandomSetup.bufs.g1).length = 4
    ∧ (sampleRandomSetup.bufs.mem sampleRandomSetup.bufs.g2).length = 4
    ∧ mulInt32 32767 32767 = .ok 1073676289 :=
  ⟨by decide, rfl,
    ((cell_count_no_overflow sampleConfig sampleEnv (by decide)).2.2.2
      sampleRandomSetup rfl rfl).1,
    ((cell_count_no_overflow sampleConfig sampleEnv (by decide)).2.2.2
      sampleRandomSetup rfl rfl).2.1,
    (cell_count_no_overflow { Config.initial with gridSize := 32767 } sampleEnv
      (by decide)).1⟩

/-- C5, as stated, fails: with `-m 40000` and `random()` returning 39999 the
cell receives 39999 narrowed to `int16_t`, which is -25537 and not in
0..40000; the run `-m 40000 -x 1 -i 0` prints it. -/
theorem random_cell_outside_range :
    (0 : Int) ≤ 40000 ∧ (0 : Int) ≤ 39999
    ∧ randomCell (toInt32 40000) 39999 = .ok (-25537)
    ∧ (main [Opt.m 40000, Opt.x 1, Opt.i 0] 1 constantRandomEnv).printed = [[-25537]]
    ∧ ¬ ((0 : Int) ≤ -25537 ∧ (-25537 : Int) ≤ 40000) :=
  ⟨by decide, by decide, rfl, by decide, by decide⟩

/-- C5, amended: for every maximum value `m` with `0 ≤ m ≤ 32767` given with
`-m` and every non-negative result of `random()`, the value stored in a cell is
defined and lies in `0..m`; so every cell of the random initial grid does. -/
theorem random_cells_within_max {AST : Type} (cfg : Config) (env : Env AST) (m : Int)
    (hm : 0 ≤ m ∧ m ≤ 32767) (hcfg : cfg.maxValue = toInt32 m)
    (hd : cfg.debugGrid = false) (hsize : 1 ≤ cfg.gridSize ∧ cfg.gridSize < 2 ^ 15)
    (hrandom : ∀ k, 0 ≤ env.random k) :
    (∀ r, 0 ≤ r → ∃ v, randomCell cfg.maxValue r = .ok v ∧ 0 ≤ v ∧ v ≤ m)
    ∧ ∃ s, setupGrid cfg env = .ok s
        ∧ (s.bufs.mem s.bufs.g1).length = (cfg.gridSize * cfg.gridSize).toNat
        ∧ ∀ v ∈ s.bufs.mem s.bufs.g1, 0 ≤ v ∧ v ≤ m := by
  have hmv : cfg.maxValue = m := by
    rw [hcfg]
    exact toInt32_eq_self (by unfold inInt32; omega)
  have hcellEq : ∀ r, randomCell cfg.maxValue r = .ok (toInt16 (Int.tmod r (m + 1))) := by
    intro r
    rw [hmv]
    exact randomCell_ok m r (by unfold inInt32; omega) (by omega)
  have hbound : ∀ r, 0 ≤ r →
      0 ≤ toInt16 (Int.tmod r (m + 1)) ∧ toInt16 (Int.tmod r (m + 1)) ≤ m := by
    intro r hr
    have ht : Int.tmod r (m + 1) = r % (m + 1) := Int.tmod_eq_emod hr (by omega)
    have h0 : 0 ≤ r % (m + 1) := Int.emod_nonneg r (by omega)
    have h1 : r % (m + 1) < m + 1 := Int.emod_lt_of_pos r (by omega)
    rw [ht, toInt16_eq_self (by omega) (by omega)]
    omega
  refine ⟨fun r hr => ⟨_, hcellEq r, hbound r hr⟩, ?_⟩
  obtain ⟨s, hs⟩ := setupGrid_random_ok cfg env hd hsize (fun r => ⟨_, hcellEq r⟩)
  obtain ⟨_, _, _, hlen, _, hcells⟩ := setupGrid_random_spec cfg env s hd hsize hs
  refine ⟨s, hs, hlen, ?_⟩
  intro v hv
  obtain ⟨k, hk, hkv⟩ := List.mem_iff_getElem.mp hv
  have hc := hcells k (by omega)
  rw [hcellEq, Except.ok.injEq, List.getD_eq_getElem _ _ hk, hkv] at hc
  rw [← hc]
  exact hbound _ (hrandom k)

/-- The run `-m 3 -x 2` in `sampleEnv`: the grid is 0 1 2 3. -/
theorem random_cells_within_max_witness :
    ((0 : Int) ≤ 3 ∧ (3 : Int) ≤ 32767)
    ∧ ∃ s, setupGrid { Config.initial with maxValue := 3, gridSize := 2 } sampleEnv = .ok s
        ∧ (s.bufs.mem s.bufs.g1).length = ((2 : Int) * 2).toNat
        ∧ ∀ v ∈ s.bufs.mem s.bufs.g1, 0 ≤ v ∧ v ≤ 3 :=
  ⟨by decide,
    (random_cells_within_max { Config.initial with maxValue := 3, gridSize := 2 } sampleEnv 3
      (by decide) (by decide) rfl (by decide) (fun k => Int.ofNat_nonneg k)).2⟩

/-- C10 fails on the code: the value of `-m` is not checked, and with
`maxValue = -1` (option `-m -1`) a run without `-d` that reaches the fill loop
computes `random() % 0` in its first round, which is undefined. -/
theorem fill_divides_by_zero {AST : Type} (opts : List Opt) (cfg : Config) (nargs : Int)
    (env : Env AST) (ast : AST) (hopts : optionLoop opts Config.initial = some cfg)
    (hargs : 1 ≤ nargs) (hsize : 1 ≤ cfg.gridSize ∧ cfg.gridSize < 2 ^ 15)
    (hok : env.parse.success = true) (hast : env.parse.ast = some ast)
    (hd : cfg.debugGrid = false) (hm : cfg.maxValue = -1) :
    addInt32 cfg.maxValue 1 = .ok 0
    ∧ (main opts nargs env).status = .undefined .divisionByZero := by
  have hcell : randomCell cfg.maxValue (env.random 0) = .error .divisionByZero := by
    rw [hm]
    rfl
  refine ⟨by rw [hm]; rfl, ?_⟩
  rw [main_of_options opts cfg nargs env hopts,
    mainBody_of_parsed cfg nargs env ast hargs hsize hok hast]
  unfold runParsed
  rw [setupGrid_random_error cfg env _ hd hsize hcell]

/-- The run `-m -1` with a file name, in `sampleEnv`. -/
theorem fill_divides_by_zero_witness :
    optionLoop [Opt.m (-1)] Config.initial = some { Config.initial with maxValue := -1 }
    ∧ (main [Opt.m (-1)] 1 sampleEnv).status = .undefined .divisionByZero :=
  ⟨by decide,
    (fill_divides_by_zero [Opt.m (-1)] { Config.initial with maxValue := -1 } 1 sampleEnv ()
      (by decide) (le_refl _) (by decide) rfl rfl rfl rfl).2⟩

/-- C6: with `-d`, whatever the value of `-x`, the grid setup succeeds with a
5 by 5 grid whose cell at row `r`, column `c` (index `5 * r + c`) is 1 exactly
when `r = 2` and `1 ≤ c ≤ 3`, and 0 otherwise; and every engine call of the run
is made with width 5 and height 5. -/
theorem debug_grid_is_blinker {AST : Type} (cfg : Config) (nargs : Int) (env : Env AST)
    (hd : cfg.debugGrid = true) :
    (∃ s, setupGrid cfg env = .ok s ∧ s.gridSize = 5
        ∧ (s.bufs.mem s.bufs.g1).length = 25
        ∧ ∀ r c : Nat, r < 5 → c < 5 →
            (s.bufs.mem s.bufs.g1)[5 * r + c]?
              = some (if r = 2 ∧ 1 ≤ c ∧ c ≤ 3 then 1 else 0))
    ∧ ∀ ev ∈ (mainBody cfg nargs env).events, ∀ e cur next w h,
        ev = Event.step e cur next w h → w = 5 ∧ h = 5 := by
  have hs : setupGrid cfg env
      = .ok { gridSize := 5,
              bufs := { mem := stackMemory env, g1 := .oldgrid, g2 := .newgrid } } := by
    unfold setupGrid
    rw [hd]
    rfl
  constructor
  · refine ⟨_, hs, rfl, rfl, ?_⟩
    intro r c hr hc
    have hcell : ∀ r c : Fin 5, oldgrid[5 * r.val + c.val]?
        = some (if r.val = 2 ∧ 1 ≤ c.val ∧ c.val ≤ 3 then 1 else 0) := by decide
    exact hcell ⟨r, hr⟩ ⟨c, hc⟩
  · intro ev hev e cur next w h hstep
    subst hstep
    rcases mainBody_events cfg nargs env _ hev with h | h | h | h | ⟨ast, _, _, _, _, h⟩
    · cases h
    · cases h
    · cases h
    · cases h.1
    · rcases runParsed_events cfg env ast _ h with h | h | ⟨s, hs2, h⟩
      · cases h
      · cases h.1
      · rw [hs] at hs2
        simp only [Except.ok.injEq] at hs2
        subst hs2
        rw [runGenerations_events, List.mem_append] at h
        rcases h with hc | hst
        · cases hj : cfg.useJIT <;> simp [hj] at hc
        · rw [List.mem_map] at hst
          obtain ⟨j, _, hj⟩ := hst
          simp only [Event.step.injEq] at hj
          exact ⟨hj.2.2.2.1.symm, hj.2.2.2.2.symm⟩

/-- The run `-d -x 9`: the grid is the 5 by 5 blinker and the one engine call
is made with dimensions 5 and 5. -/
theorem debug_grid_is_blinker_witness :
    ({ Config.initial with debugGrid := true, gridSize := 9 } : Config).debugGrid = true
    ∧ (∃ s, setupGrid { Config.initial with debugGrid := true, gridSize := 9 } sampleEnv = .ok s
        ∧ s.gridSize = 5 ∧ s.bufs.mem s.bufs.g1 = oldgrid)
    ∧ (mainBody { Config.initial with debugGrid := true, gridSize := 9 } 1 sampleEnv).events
        = [.parse true, .step .interpreter .oldgrid .newgrid 5 5] :=
  ⟨rfl,
    ⟨sampleDebugSetup, rfl,
      ((debug_grid_is_blinker { Config.initial with debugGrid := true, gridSize := 9 } 1
        sampleEnv rfl).2 (.step .interpreter .oldgrid .newgrid 5 5) (by decide)
        .interpreter .oldgrid .newgrid 5 5 rfl).1,
      rfl⟩,
    by decide⟩

/-! # Properties of the two engines -/

/-! ## Constant folding -/

theorem evalExpr_foldExpr (ctx : Context) (e : Expr) :
    evalExpr ctx (foldExpr e) = evalExpr ctx e := by
  induction e with
  | lit n => rfl
  | self => rfl
  | neighbor dx dy => rfl
  | unary op e ih =>
    unfold foldExpr
    split
    · rename_i v hv
      rw [hv] at ih
      simp only [evalExpr] at ih ⊢
      rw [← ih]
    · simp only [evalExpr, ih]
  | binary op a b iha ihb =>
    unfold foldExpr
    split
    · rename_i va vb ha hb
      rw [ha] at iha
      rw [hb] at ihb
      simp only [evalExpr] at iha ihb
      split
      · rename_i v hv
        simp only [evalExpr, ← iha, ← ihb, evalBinary, hv]
      · simp only [evalExpr, ← iha, ← ihb]
    · simp only [evalExpr, iha, ihb]

/-- Running `p` followed by `q` is running `p`, then `q` from its result. -/
theorem execStatements_append (ctx : Context) (p q : StatementList) (out : Int) :
    execStatements ctx (p.append q) out
      = match execStatements ctx p out with
        | .error err => .error err
        | .ok out2 => execStatements ctx q out2 := by
  induction p generalizing out with
  | nil => rfl
  | assign e rest ih =>
    simp only [StatementList.append, execStatements]
    cases evalExpr ctx e with
    | error err => rfl
    | ok v => exact ih v
  | cond c thenBody elseBody rest _ _ ih =>
    simp only [StatementList.append, execStatements]
    cases evalExpr ctx c with
    | error err => rfl
    | ok v =>
      dsimp only
      cases (if v ≠ 0 then execStatements ctx thenBody out
             else execStatements ctx elseBody out) with
      | error err => rfl
      | ok out2 => exact ih out2

theorem execStatements_foldStatements (ctx : Context) (p : StatementList) (out : Int) :
    execStatements ctx (foldStatements p) out = execStatements ctx p out := by
  induction p generalizing out with
  | nil => rfl
  | assign e rest ih =>
    simp only [foldStatements, execStatements, evalExpr_foldExpr]
    cases evalExpr ctx e with
    | error err => rfl
    | ok v => exact ih v
  | cond c thenBody elseBody rest iht ihe ih =>
    have hc := evalExpr_foldExpr ctx c
    unfold foldStatements
    split
    · rename_i v hv
      rw [hv] at hc
      simp only [evalExpr] at hc
      rw [execStatements_append]
      simp only [execStatements, ← hc]
      by_cases hv0 : v ≠ 0
      · rw [if_pos hv0, if_pos hv0, iht]
        simp only [ih]
      · rw [if_neg hv0, if_neg hv0, ihe]
        simp only [ih]
    · simp only [execStatements, hc, iht, ihe, ih]

/-! ## Shared neighbour reads -/

/-- Evaluation with shared reads agrees with the interpreter when `read`
agrees with the checked read on the offsets of the expression and the cache is
valid; the cache it leaves is valid. -/
theorem evalShared_spec (read : Int → Int → Except EvalError Int) (ctx : Context) (e : Expr)
    (cache : ReadCache)
    (hread : ∀ p ∈ e.offsets, read p.1 p.2 = readNeighbor ctx p.1 p.2)
    (hcache : cache.valid ctx) :
    (∀ err, evalExpr ctx e = .error err → evalShared read ctx e cache = .error err)
    ∧ (∀ v, evalExpr ctx e = .ok v →
        ∃ c2 : ReadCache, evalShared read ctx e cache = .ok (v, c2) ∧ c2.valid ctx) := by
  induction e generalizing cache with
  | lit n =>
    constructor
    · intro err h; cases h
    · intro v h
      simp only [evalExpr, Except.ok.injEq] at h
      subst h
      exact ⟨cache, rfl, hcache⟩
  | self =>
    constructor
    · intro err h; cases h
    · intro v h
      simp only [evalExpr, Except.ok.injEq] at h
      subst h
      exact ⟨cache, rfl, hcache⟩
  | neighbor dx dy =>
    have hr : read dx dy = readNeighbor ctx dx dy := hread (dx, dy) (by simp [Expr.offsets])
    simp only [evalExpr, evalShared]
    cases hl : List.lookup (dx, dy) cache with
    | some w =>
      have hw := hcache dx dy w hl
      constructor
      · intro err h
        rw [hw] at h
        cases h
      · intro v h
        rw [hw] at h
        simp only [Except.ok.injEq] at h
        subst h
        exact ⟨cache, rfl, hcache⟩
    | none =>
      dsimp only
      rw [hr]
      constructor
      · intro err h
        rw [h]
      · intro v h
        rw [h]
        refine ⟨((dx, dy), v) :: cache, rfl, ?_⟩
        intro dx2 dy2 v2 hl2
        rw [List.lookup_cons] at hl2
        by_cases hk : ((dx2, dy2) == (dx, dy)) = true
        · rw [hk] at hl2
          simp only [Option.some.injEq] at hl2
          have hkeq : (dx2, dy2) = (dx, dy) := by simpa using hk
          simp only [Prod.mk.injEq] at hkeq
          rw [hkeq.1, hkeq.2, ← hl2]
          exact h
        · simp only [Bool.not_eq_true] at hk
          rw [hk] at hl2
          exact hcache dx2 dy2 v2 hl2
  | unary op e ih =>
    obtain ⟨ih1, ih2⟩ := ih cache hread hcache
    simp only [evalExpr, evalShared]
    cases he : evalExpr ctx e with
    | error err0 =>
      rw [ih1 err0 he]
      exact ⟨fun err h => by cases h; rfl, fun v h => by cases h⟩
    | ok v0 =>
      obtain ⟨c2, hc2, hv2⟩ := ih2 v0 he
      rw [hc2]
      constructor
      · intro err h; cases h
      · intro v h
        simp only [Except.ok.injEq] at h
        subst h
        exact ⟨c2, rfl, hv2⟩
  | binary op a b iha ihb =>
    have hra : ∀ p ∈ a.offsets, read p.1 p.2 = readNeighbor ctx p.1 p.2 :=
      fun p hp => hread p (by simp [Expr.offsets, hp])
    have hrb : ∀ p ∈ b.offsets, read p.1 p.2 = readNeighbor ctx p.1 p.2 :=
      fun p hp => hread p (by simp [Expr.offsets, hp])
    obtain ⟨iha1, iha2⟩ := iha cache hra hcache
    simp only [evalExpr, evalShared]
    cases hea : evalExpr ctx a with
    | error err0 =>
      rw [iha1 err0 hea]
      exact ⟨fun err h => by cases h; rfl, fun v h => by cases h⟩
    | ok va =>
      obtain ⟨c2, hc2, hv2⟩ := iha2 va hea
      rw [hc2]
      dsimp only
      obtain ⟨ihb1, ihb2⟩ := ihb c2 hrb hv2
      cases heb : evalExpr ctx b with
      | error err0 =>
        rw [ihb1 err0 heb]
        exact ⟨fun err h => by cases h; rfl, fun v h => by cases h⟩
      | ok vb =>
        obtain ⟨c3, hc3, hv3⟩ := ihb2 vb heb
        rw [hc3]
        dsimp only
        cases evalBinary ctx op va vb with
        | error err0 => exact ⟨fun err h => by cases h; rfl, fun v h => by cases h⟩
        | ok v0 =>
          constructor
          · intro err h; cases h
          · intro v h
            simp only [Except.ok.injEq] at h
            subst h
            exact ⟨c3, rfl, hv3⟩

/-- Execution with shared reads agrees with the interpreter, under the same
conditions as `evalShared_spec`. -/
theorem execShared_spec (read : Int → Int → Except EvalError Int) (ctx : Context)
    (p : StatementList) (out : Int) (cache : ReadCache)
    (hread : ∀ q ∈ p.offsets, read q.1 q.2 = readNeighbor ctx q.1 q.2)
    (hcache : cache.valid ctx) :
    (∀ err, execStatements ctx p out = .error err →
        execShared read ctx p out cache = .error err)
    ∧ (∀ v, execStatements ctx p out = .ok v →
        ∃ c2 : ReadCache, execShared read ctx p out cache = .ok (v, c2) ∧ c2.valid ctx) := by
  induction p generalizing out cache with
  | nil =>
    constructor
    · intro err h; cases h
    · intro v h
      simp only [execStatements, Except.ok.injEq] at h
      subst h
      exact ⟨cache, rfl, hcache⟩
  | assign e rest ih =>
    have hre : ∀ q ∈ e.offsets, read q.1 q.2 = readNeighbor ctx q.1 q.2 :=
      fun q hq => hread q (by simp [StatementList.offsets, hq])
    have hrr : ∀ q ∈ rest.offsets, read q.1 q.2 = readNeighbor ctx q.1 q.2 :=
      fun q hq => hread q (by simp [StatementList.offsets, hq])
    obtain ⟨he1, he2⟩ := evalShared_spec read ctx e cache hre hcache
    simp only [execStatements, execShared]
    cases he : evalExpr ctx e with
    | error err0 =>
      rw [he1 err0 he]
      exact ⟨fun err h => by cases h; rfl, fun v h => by cases h⟩
    | ok v0 =>
      obtain ⟨c2, hc2, hv2⟩ := he2 v0 he
      rw [hc2]
      exact ih v0 c2 hrr hv2
  | cond c thenBody elseBody rest iht ihe ih =>
    have hrc : ∀ q ∈ c.offsets, read q.1 q.2 = readNeighbor ctx q.1 q.2 :=
      fun q hq => hread q (by simp [StatementList.offsets, hq])
    have hrt : ∀ q ∈ thenBody.offsets, read q.1 q.2 = readNeighbor ctx q.1 q.2 :=
      fun q hq => hread q (by simp [StatementList.offsets, hq])
    have hre : ∀ q ∈ elseBody.offsets, read q.1 q.2 = readNeighbor ctx q.1 q.2 :=
      fun q hq => hread q (by simp [StatementList.offsets, hq])
    have hrr : ∀ q ∈ rest.offsets, read q.1 q.2 = readNeighbor ctx q.1 q.2 :=
      fun q hq => hread q (by simp [StatementList.offsets, hq])
    obtain ⟨hc1, hc2⟩ := evalShared_spec read ctx c cache hrc hcache
    simp only [execStatements, execShared]
    cases hc : evalExpr ctx c with
    | error err0 =>
      rw [hc1 err0 hc]
      exact ⟨fun err h => by cases h; rfl, fun v h => by cases h⟩
    | ok v0 =>
      obtain ⟨c2, hs2, hv2⟩ := hc2 v0 hc
      rw [hs2]
      dsimp only
      have hbranch :
          (∀ err, (if v0 ≠ 0 then execStatements ctx thenBody out
                    else execStatements ctx elseBody out) = .error err →
              (if v0 ≠ 0 then execShared read ctx thenBody out c2
                else execShared read ctx elseBody out c2) = .error err)
          ∧ (∀ v, (if v0 ≠ 0 then execStatements ctx thenBody out
                    else execStatements ctx elseBody out) = .ok v →
              ∃ c3 : ReadCache,
                (if v0 ≠ 0 then execShared read ctx thenBody out c2
                  else execShared read ctx elseBody out c2) = .ok (v, c3)
                ∧ c3.valid ctx) := by
        by_cases hv0 : v0 ≠ 0
        · rw [if_pos hv0, if_pos hv0]
          exact iht out c2 hrt hv2
        · rw [if_neg hv0, if_neg hv0]
          exact ihe out c2 hre hv2
      obtain ⟨hb1, hb2⟩ := hbranch
      cases hb : (if v0 ≠ 0 then execStatements ctx thenBody out
                  else execStatements ctx elseBody out) with
      | error err0 =>
        rw [hb1 err0 hb]
        exact ⟨fun err h => by cases h; rfl, fun v h => by cases h⟩
      | ok out2 =>
        obtain ⟨c3, hs3, hv3⟩ := hb2 out2 hb
        rw [hs3]
        exact ih out2 c3 hrr hv3

/-! ## The interior cells -/

/-- Every offset is within the margins computed from a list that contains it. -/
theorem margins_spec (offs : List (Int × Int)) (q : Int × Int) (hq : q ∈ offs) :
    -q.1 ≤ (margins offs).left ∧ q.1 ≤ (margins offs).right
    ∧ -q.2 ≤ (margins offs).top ∧ q.2 ≤ (margins offs).bottom := by
  induction offs with
  | nil => cases hq
  | cons o rest ih =>
    obtain ⟨dx, dy⟩ := o
    simp only [margins]
    rcases List.mem_cons.mp hq with h | h
    · subst h
      exact ⟨le_max_right _ _, le_max_right _ _, le_max_right _ _, le_max_right _ _⟩
    · obtain ⟨h1, h2, h3, h4⟩ := ih h
      exact ⟨le_trans h1 (le_max_left _ _), le_trans h2 (le_max_left _ _),
        le_trans h3 (le_max_left _ _), le_trans h4 (le_max_left _ _)⟩

/-- At an interior cell the unchecked read of an offset of the program is the
checked read. -/
theorem readInterior_eq_readNeighbor (ctx : Context) (offs : List (Int × Int))
    (hint : (margins offs).interior ctx.width ctx.height ctx.x ctx.y)
    (q : Int × Int) (hq : q ∈ offs) :
    readInterior ctx q.1 q.2 = readNeighbor ctx q.1 q.2 := by
  obtain ⟨h1, h2, h3, h4⟩ := margins_spec offs q hq
  unfold Margins.interior inInt32 inGrid at hint
  have hg : inGrid ctx.width ctx.height (ctx.x + q.1) (ctx.y + q.2) := by
    unfold inGrid
    omega
  have hr : inInt32 (ctx.x + q.1) ∧ inInt32 (ctx.y + q.2) := by
    unfold inInt32
    omega
  unfold readNeighbor readInterior
  rw [if_pos hr, if_pos hg]

/-! ## Engine equivalence -/

/-- The compiled routine computes every cell as the interpreter does. -/
theorem stepCell_eq_runCell (program : StatementList) (optimisationLevel : Int)
    (grid : Grid) (width height x y : Int) :
    Compiler.stepCell (Compiler.lower program optimisationLevel) grid width height x y
      = Interpreter.runCell grid width height program x y := by
  unfold Interpreter.runCell Compiler.lower
  by_cases h0 : optimisationLevel ≤ 0
  · rw [if_pos h0]
    rfl
  rw [if_neg h0]
  by_cases h1 : optimisationLevel = 1
  · rw [if_pos h1]
    simp only [Compiler.stepCell, execStatements_foldStatements]
  rw [if_neg h1]
  simp only [Compiler.stepCell]
  rw [← execStatements_foldStatements _ program]
  have hshared : ∀ read : Int → Int → Except EvalError Int,
      (∀ q ∈ (foldStatements program).offsets,
        read q.1 q.2
          = readNeighbor { grid := grid, width := width, height := height, x := x, y := y }
              q.1 q.2) →
      (match execShared read
          { grid := grid, width := width, height := height, x := x, y := y }
          (foldStatements program) (cellAt grid width x y) [] with
        | .error err => .error err
        | .ok r => .ok r.1)
        = execStatements { grid := grid, width := width, height := height, x := x, y := y }
            (foldStatements program) (cellAt grid width x y) := by
    intro read hread
    have hvalid : ReadCache.valid []
        { grid := grid, width := width, height := height, x := x, y := y } := by
      intro dx dy v h
      cases h
    obtain ⟨hs1, hs2⟩ := execShared_spec read _ (foldStatements program)
      (cellAt grid width x y) [] hread hvalid
    cases he : execStatements { grid := grid, width := width, height := height, x := x, y := y }
        (foldStatements program) (cellAt grid width x y) with
    | error err => rw [hs1 err he]
    | ok v =>
      obtain ⟨c2, hc2, _⟩ := hs2 v he
      rw [hc2]
  by_cases hint : (margins (foldStatements program).offsets).interior width height x y
  · rw [if_pos hint]
    exact hshared _ (fun q hq =>
      readInterior_eq_readNeighbor
        { grid := grid, width := width, height := height, x := x, y := y }
        (foldStatements program).offsets hint q hq)
  · rw [if_neg hint]
    exact hshared _ (fun _ _ => rfl)

/-- C7, on the engines as the specification describes them: for every program,
every optimisation level, every grid and all dimensions, the stepping routine
returned by `compile` yields exactly what `runOneStep` yields on the same
current buffer: the same next-generation buffer, or the same failure. -/
theorem engine_equivalence (program : StatementList) (optimisationLevel : Int)
    (auxSearchPath : String) (currentGrid nextGrid : Grid) (width height : Int) :
    Compiler.compile program optimisationLevel auxSearchPath currentGrid nextGrid width height
      = Interpreter.runOneStep currentGrid nextGrid width height program := by
  unfold Compiler.compile Compiler.steppingRoutine Interpreter.runOneStep
  have hcell : Compiler.stepCell (Compiler.lower program optimisationLevel) currentGrid
      width height = Interpreter.runCell currentGrid width height program := by
    funext x y
    exact stepCell_eq_runCell program optimisationLevel currentGrid width height x y
  rw [hcell]

set_option maxRecDepth 100000

/-- The example scenario at level 2: one generation turns the horizontal
blinker into the vertical one, in the compiled routine and in the interpreter. -/
theorem engine_equivalence_witness :
    Compiler.compile lifeProgram 2 "" oldgrid [] 5 5 = .ok verticalBlinker
    ∧ Interpreter.runOneStep oldgrid [] 5 5 lifeProgram = .ok verticalBlinker :=
  ⟨(engine_equivalence lifeProgram 2 "" oldgrid [] 5 5).trans (by rfl), by rfl⟩

/-- The example scenario of section 8 at the levels 0 and 1, the second
generation at level 2, and the division by zero of `Self / Neighbor(0, 0)`,
which both engines report at the first cell. -/
theorem example_scenario :
    Compiler.compile lifeProgram 0 "" oldgrid [] 5 5 = .ok verticalBlinker
    ∧ Compiler.compile lifeProgram 1 "" oldgrid [] 5 5 = .ok verticalBlinker
    ∧ Compiler.compile lifeProgram 2 "" verticalBlinker [] 5 5 = .ok oldgrid
    ∧ Interpreter.runOneStep verticalBlinker [] 5 5 lifeProgram = .ok oldgrid
    ∧ Compiler.compile (.assign (.binary .div .self (.neighbor 0 0)) .nil) 2 "" oldgrid [] 5 5
        = .error { x := 0, y := 0, operation := .divisionByZero }
    ∧ Interpreter.runOneStep oldgrid [] 5 5 (.assign (.binary .div .self (.neighbor 0 0)) .nil)
        = .error { x := 0, y := 0, operation := .divisionByZero } :=
  ⟨by rfl, by rfl, by rfl, by rfl, by rfl, by rfl⟩

end CellularAutomata
